import Mathlib

/-!
Shallow embedding of the Kellogg course-bidding forecasting engine
(the forecasting module: CONFIG, weighted statistics, trend detection,
adjustment multipliers, cross-phase estimation, bid recommendation and
the win-probability curve), together with theorems settling the spec
claims about it.

Modelling conventions:
* JavaScript floating-point numbers are modelled as exact rationals; the
  division convention of Lean (x / 0 = 0) is used where the source would
  produce NaN or Infinity on a zero denominator.
* The transcendental primitives used by the engine (Math.exp, Math.tanh,
  Math.sqrt, the Abramowitz-Stegun erf, Math.log, Math.pow and the
  Student-t CDF built from the special-function approximations) are kept
  abstract in a parameter structure Prims; theorems that depend on facts
  about them (for example that Math.sqrt 0 = 0, or that erf is monotone
  and bounded by 1 in absolute value) take those facts as hypotheses.
* Math.round (round half toward positive infinity) is jround below.
* Term strings are modelled by their parse result: a season/year pair, or
  none for a token that does not match the season-year pattern (the
  source maps such tokens to order value 0).
* The human-readable description strings attached to forecast factors,
  the strategy notes and the overall recommendation text are presentation
  strings and are not modelled; every numeric and categorical field of
  the forecast results is.
-/

namespace KelloggBidding

/- Batteries marks the rational-number field operations irreducible,
which blocks evaluation of concrete instances inside decide; restore the
default reducibility for this development (proof-irrelevant: the kernel
ignores reducibility attributes). -/
attribute [local semireducible] Rat.add Rat.mul Rat.sub Rat.inv

/-- JavaScript Math.round: round half away from zero toward positive
infinity, i.e. the floor of q + 1/2. -/
def jround (q : ℚ) : ℤ := ⌊q + 1/2⌋

/-- Math.round followed by the cast back to the rational numbers in which
the engine computes. -/
def jroundQ (q : ℚ) : ℚ := ((jround q : ℤ) : ℚ)

/-- The transcendental/special-function primitives of the engine, kept
abstract.  exp, tanh, sqrt, erf, logf, powf stand for Math.exp, Math.tanh,
Math.sqrt, the Abramowitz-Stegun erf of the source, Math.log and Math.pow;
tcdf stands for the source's tCDF (Student-t CDF built from the erf /
incomplete-beta approximations), which no verified claim depends on. -/
structure Prims where
  exp : ℚ → ℚ
  tanh : ℚ → ℚ
  sqrt : ℚ → ℚ
  erf : ℚ → ℚ
  logf : ℚ → ℚ
  powf : ℚ → ℚ → ℚ
  tcdf : ℚ → ℚ → ℚ

/-- Season of a term token, ordered Winter < Spring < Summer < Fall. -/
inductive Season where
  | winter
  | spring
  | summer
  | fall
deriving DecidableEq

/-- A term token, modelled by its parse: a season/year pair, or none when
the token does not match the season-year grammar. -/
abbrev Term := Option (Season × ℕ)

/-- PhaseType of the source: "1" | "2" | "3" | "4" | "PWYB". -/
inductive PhaseType where
  | p1
  | p2
  | p3
  | p4
  | pwyb
deriving DecidableEq

/-- HistoricalBid of the source (the seatsTotal field is optional and
never read by the engine, so it is not modelled). -/
structure HistoricalBid where
  term : Term
  phase : PhaseType
  clearingPrice : ℚ
  spotsAvailable : ℚ
  bidsPlaced : ℚ
deriving DecidableEq

/-- ProfessorData (difficulty and wouldTakeAgain are optional and never
read by the engine). -/
structure ProfessorData where
  rating : ℚ
deriving DecidableEq

/-- A parsed meeting-time token H:MM(AM|PM); the engine receives none
both for a missing meeting time and for one that fails the pattern. -/
structure TimeTok where
  hours : ℕ
  minutes : ℕ
  isPM : Bool
deriving DecidableEq

/-- A campus token, modelled by the one predicate the engine evaluates on
it: whether its lowercase form has the substring chicago. -/
structure CampusTok where
  mentionsChicago : Bool
deriving DecidableEq

/-- CourseContext of the source. -/
structure CourseContext where
  courseId : String
  courseName : String
  professor : String
  historicalBids : List HistoricalBid
  professorData : Option ProfessorData
  meetingTime : Option TimeTok
  campus : Option CampusTok
deriving DecidableEq

/-- Confidence tiers. -/
inductive Confidence where
  | high
  | medium
  | low
  | insufficient
deriving DecidableEq

/-- Trend classifications. -/
inductive Trend where
  | rising
  | stable
  | falling
  | unknown
deriving DecidableEq

/-- A forecast factor: named impact record (the human-readable
description string is presentation text and is not modelled). -/
structure ForecastFactor where
  name : String
  impact : ℚ
deriving DecidableEq

/-- ForecastResult of the source.  Fields that the source leaves
undefined on some paths (trendSignificant, uncertaintyMargin,
probabilityData) are Options. -/
structure ForecastResult where
  phase : PhaseType
  expectedPrice : ℚ
  safeBid : ℚ
  aggressiveBid : ℚ
  minimumBid : ℚ
  confidence : Confidence
  dataPoints : ℕ
  trend : Trend
  trendStrength : ℚ
  trendSignificant : Option Bool
  volatility : ℚ
  demandPressure : ℚ
  uncertaintyMargin : Option ℚ
  factors : List ForecastFactor
  probabilityData : Option (List (ℚ × ℚ))
deriving DecidableEq

/-- CompleteForecast of the source; the forecasts object is flattened to
four fields, and the strategy-notes / overall-recommendation presentation
strings are not modelled. -/
structure CompleteForecast where
  courseId : String
  professor : String
  phase1 : ForecastResult
  phase2 : ForecastResult
  phase3 : ForecastResult
  phase4 : ForecastResult
deriving DecidableEq

/-- Season order used by parseTermToNumber. -/
def seasonOrder : Season → ℚ
  | Season.winter => 0
  | Season.spring => 1
  | Season.summer => 2
  | Season.fall => 3

/-- parseTermToNumber: Year * 10 + SeasonOrder, 0 for unparsable terms. -/
def parseTermToNumber : Term → ℚ
  | none => 0
  | some (s, y) => (y : ℚ) * 10 + seasonOrder s

/-- calculateTimeWeight: exponential decay weight with
TIME_DECAY_FACTOR = 0.3 and 4 terms per year. -/
def calculateTimeWeight (P : Prims) (termNumber currentTermNumber : ℚ) : ℚ :=
  P.exp (-(3/10) * ((currentTermNumber - termNumber) / 4))

/-- Minimum of a list of numbers, as Math.min over a spread nonempty
array (the engine only evaluates it on nonempty arrays). -/
def listMin : List ℚ → ℚ
  | [] => 0
  | h :: t => t.foldl min h

/-- Maximum of a list of numbers, as Math.max over a spread nonempty
array. -/
def listMax : List ℚ → ℚ
  | [] => 0
  | h :: t => t.foldl max h

/-! ## weightedStatistics -/

/-- Weighted mean of weightedStatistics: values combined with the
normalized weights. -/
def wsMean (values weights : List ℚ) : ℚ :=
  ∑ i ∈ Finset.range values.length,
    values.getD i 0 * (weights.getD i 0 / weights.sum)

/-- Weighted variance of weightedStatistics. -/
def wsVariance (values weights : List ℚ) : ℚ :=
  ∑ i ∈ Finset.range values.length,
    (weights.getD i 0 / weights.sum) * (values.getD i 0 - wsMean values weights) ^ 2

/-- The value/normalized-weight pairs sorted by value (a stable sort, as
Array.prototype.sort). -/
def wsSortedPairs (values weights : List ℚ) : List (ℚ × ℚ) :=
  ((List.range values.length).map
    (fun i => (values.getD i 0, weights.getD i 0 / weights.sum))).mergeSort
    (fun a b => a.1 ≤ b.1)

/-- The cumulative-weight scan of the percentile function: the first
value whose cumulative normalized weight reaches p. -/
def percScan (p : ℚ) (cum : ℚ) : List (ℚ × ℚ) → Option ℚ
  | [] => none
  | (v, w) :: rest => if p ≤ cum + w then some v else percScan p (cum + w) rest

/-- The percentile function of weightedStatistics (a no-op constant 0 on
an empty series, as the source's early return). -/
def wsPercentile (values weights : List ℚ) (p : ℚ) : ℚ :=
  if values = [] then 0
  else
    match percScan p 0 (wsSortedPairs values weights) with
    | some v => v
    | none => ((wsSortedPairs values weights).getLast?.map Prod.fst).getD 0

/-- The record returned by weightedStatistics (the percentile closure is
wsPercentile above). -/
structure WStats where
  mean : ℚ
  median : ℚ
  stdDev : ℚ
deriving DecidableEq

/-- weightedStatistics: all-zero on an empty series, otherwise weighted
mean / median / standard deviation. -/
def weightedStatistics (P : Prims) (values weights : List ℚ) : WStats :=
  if values = [] then ⟨0, 0, 0⟩
  else ⟨wsMean values weights, wsPercentile values weights (1/2), P.sqrt (wsVariance values weights)⟩

/-! ## detectTrend

The weighted linear regression with t-test.  The source accumulates the
regression sums in index loops over the three parallel arrays; each local
of the source is promoted to a definition named after it (dt prefix), and
the array reads prices[i] / terms[i] / weights[i] are List.getD. -/

/-- totalWeight of detectTrend. -/
def dtTotalWeight (weights : List ℚ) : ℚ := weights.sum

/-- termRange of detectTrend: max - min, or 1 when that is 0. -/
def dtTermRange (terms : List ℚ) : ℚ :=
  if listMax terms - listMin terms = 0 then 1 else listMax terms - listMin terms

/-- normalizedTerms of detectTrend. -/
def dtX (terms : List ℚ) (i : ℕ) : ℚ :=
  (terms.getD i 0 - listMin terms) / dtTermRange terms

/-- sumWX of detectTrend. -/
def dtSumWX (prices terms weights : List ℚ) : ℚ :=
  ∑ i ∈ Finset.range prices.length, weights.getD i 0 * dtX terms i

/-- sumWY of detectTrend. -/
def dtSumWY (prices terms weights : List ℚ) : ℚ :=
  ∑ i ∈ Finset.range prices.length, weights.getD i 0 * prices.getD i 0

/-- sumWXX of detectTrend. -/
def dtSumWXX (prices terms weights : List ℚ) : ℚ :=
  ∑ i ∈ Finset.range prices.length, weights.getD i 0 * dtX terms i * dtX terms i

/-- sumWXY of detectTrend. -/
def dtSumWXY (prices terms weights : List ℚ) : ℚ :=
  ∑ i ∈ Finset.range prices.length, weights.getD i 0 * dtX terms i * prices.getD i 0

/-- meanX of detectTrend. -/
def dtMeanX (prices terms weights : List ℚ) : ℚ :=
  dtSumWX prices terms weights / dtTotalWeight weights

/-- meanY of detectTrend. -/
def dtMeanY (prices terms weights : List ℚ) : ℚ :=
  dtSumWY prices terms weights / dtTotalWeight weights

/-- numerator of the slope of detectTrend. -/
def dtNumerator (prices terms weights : List ℚ) : ℚ :=
  dtSumWXY prices terms weights / dtTotalWeight weights -
    dtMeanX prices terms weights * dtMeanY prices terms weights

/-- denominator of the slope of detectTrend. -/
def dtDenominator (prices terms weights : List ℚ) : ℚ :=
  dtSumWXX prices terms weights / dtTotalWeight weights -
    dtMeanX prices terms weights * dtMeanX prices terms weights

/-- slope of detectTrend. -/
def dtSlope (prices terms weights : List ℚ) : ℚ :=
  dtNumerator prices terms weights / dtDenominator prices terms weights

/-- intercept of detectTrend. -/
def dtIntercept (prices terms weights : List ℚ) : ℚ :=
  dtMeanY prices terms weights - dtSlope prices terms weights * dtMeanX prices terms weights

/-- sumSquaredResiduals of detectTrend. -/
def dtSSR (prices terms weights : List ℚ) : ℚ :=
  ∑ i ∈ Finset.range prices.length,
    weights.getD i 0 *
      (prices.getD i 0 - (dtIntercept prices terms weights + dtSlope prices terms weights * dtX terms i)) *
      (prices.getD i 0 - (dtIntercept prices terms weights + dtSlope prices terms weights * dtX terms i))

/-- sumWXXCentered of detectTrend. -/
def dtSumWXXc (prices terms weights : List ℚ) : ℚ :=
  ∑ i ∈ Finset.range prices.length,
    weights.getD i 0 * (dtX terms i - dtMeanX prices terms weights) ^ 2

/-- effectiveN of detectTrend: (sum of weights)^2 / (sum of squared
weights). -/
def dtEffectiveN (weights : List ℚ) : ℚ :=
  dtTotalWeight weights ^ 2 / (weights.map (fun w => w * w)).sum

/-- df of detectTrend: max 1 (effectiveN - 2). -/
def dtDf (weights : List ℚ) : ℚ := max 1 (dtEffectiveN weights - 2)

/-- mse of detectTrend. -/
def dtMSE (prices terms weights : List ℚ) : ℚ :=
  dtSSR prices terms weights / dtDf weights

/-- seSlope of detectTrend. -/
def dtSeSlope (P : Prims) (prices terms weights : List ℚ) : ℚ :=
  P.sqrt (dtMSE prices terms weights /
    (dtTotalWeight weights * dtSumWXXc prices terms weights / dtTotalWeight weights))

/-- tStat of detectTrend (0 when the standard error is not positive). -/
def dtTStat (P : Prims) (prices terms weights : List ℚ) : ℚ :=
  if 0 < dtSeSlope P prices terms weights then
    |dtSlope prices terms weights| / dtSeSlope P prices terms weights
  else 0

/-- pValue of detectTrend: a two-tailed Student-t p-value via the tcdf
primitive, or 1 when the t-statistic is not positive. -/
def dtPValue (P : Prims) (prices terms weights : List ℚ) : ℚ :=
  if 0 < dtTStat P prices terms weights then
    2 * (1 - P.tcdf (dtTStat P prices terms weights) (dtDf weights))
  else 1

/-- isSignificant of detectTrend: p-value below 0.10. -/
def dtIsSignificant (P : Prims) (prices terms weights : List ℚ) : Bool :=
  decide (dtPValue P prices terms weights < 1/10)

/-- percentageChange of detectTrend: slope as a fraction of the mean
price. -/
def dtPctChange (prices terms weights : List ℚ) : ℚ :=
  dtSlope prices terms weights / dtMeanY prices terms weights

/-- strength of detectTrend: |fractional slope| / 0.5 capped at 1. -/
def dtStrength (prices terms weights : List ℚ) : ℚ :=
  min (|dtPctChange prices terms weights| / (1/2)) 1

/-- The record returned by detectTrend. -/
structure TrendResult where
  trend : Trend
  strength : ℚ
  pValue : ℚ
  isSignificant : Bool
deriving DecidableEq

/-- detectTrend: weighted linear regression with significance testing.
Below TREND.MIN_POINTS = 3 points the trend is unknown; near-zero
x-variance (|denominator| below 0.0001) short-circuits to stable. -/
def detectTrend (P : Prims) (prices terms weights : List ℚ) : TrendResult :=
  if prices.length < 3 then ⟨Trend.unknown, 0, 1, false⟩
  else if |dtDenominator prices terms weights| < 1/10000 then ⟨Trend.stable, 0, 1, false⟩
  else
    ⟨if dtIsSignificant P prices terms weights = true ∧ 1/20 < dtPctChange prices terms weights then
        Trend.rising
      else if dtIsSignificant P prices terms weights = true ∧ dtPctChange prices terms weights < -(1/20) then
        Trend.falling
      else Trend.stable,
      dtStrength prices terms weights,
      dtPValue P prices terms weights,
      dtIsSignificant P prices terms weights⟩

/-! ## Adjustment engine -/

/-- calculateRatingImpact: sigmoid professor-rating multiplier
1 + RATING_IMPACT_SCALE * tanh((rating - 5.0) / 1.5); 1 for an absent or
zero rating.  (The description string is presentation text.) -/
def calculateRatingImpact (P : Prims) (rating : Option ℚ) : ℚ :=
  match rating with
  | none => 1
  | some r => if r = 0 then 1 else 1 + (25/100) * P.tanh ((r - 5) / (3/2))

/-- The weighted demand-ratio accumulation of calculateDemandPressure:
total weight over the index pairs with positive seats and positive bids
(out-of-range array reads compare as false, hence getD default 0). -/
def dpTotalWeight (bidsPlaced spotsAvailable weights : List ℚ) : ℚ :=
  ∑ i ∈ Finset.range bidsPlaced.length,
    if 0 < spotsAvailable.getD i 0 ∧ 0 < bidsPlaced.getD i 0 then weights.getD i 0 else 0

/-- Weighted sum of bids/seats ratios of calculateDemandPressure. -/
def dpTotalWeightedRatio (bidsPlaced spotsAvailable weights : List ℚ) : ℚ :=
  ∑ i ∈ Finset.range bidsPlaced.length,
    if 0 < spotsAvailable.getD i 0 ∧ 0 < bidsPlaced.getD i 0 then
      (bidsPlaced.getD i 0 / spotsAvailable.getD i 0) * weights.getD i 0
    else 0

/-- calculateDemandPressure: 0.5 with no usable demand data, otherwise
the sigmoid (centered at 2 bids/seat, scale 1.5) of the weighted average
ratio.  (The description string is presentation text.) -/
def calculateDemandPressure (P : Prims) (bidsPlaced spotsAvailable weights : List ℚ) : ℚ :=
  if bidsPlaced = [] ∨ (∀ s ∈ spotsAvailable, s = 0) then 1/2
  else if dpTotalWeight bidsPlaced spotsAvailable weights = 0 then 1/2
  else
    1 / (1 + P.exp (-((dpTotalWeightedRatio bidsPlaced spotsAvailable weights /
      dpTotalWeight bidsPlaced spotsAvailable weights - 2) / (3/2))))

/-- getTimeSlotAdjustment: fixed lookup from the parsed start hour; 1 for
a missing or unparsable meeting time. -/
def getTimeSlotAdjustment (meetingTime : Option TimeTok) : ℚ :=
  match meetingTime with
  | none => 1
  | some t =>
    let h1 := if t.isPM = true ∧ t.hours ≠ 12 then t.hours + 12 else t.hours
    let h2 := if t.isPM = false ∧ h1 = 12 then 0 else h1
    if h2 < 9 then 9/10
    else if h2 < 13 then 1
    else if h2 < 17 then 21/20
    else 19/20

/-- getCampusAdjustment: CHICAGO = 0.95 when the campus token mentions
chicago, EVANSTON = 1 otherwise; 1 when absent. -/
def getCampusAdjustment (campus : Option CampusTok) : ℚ :=
  match campus with
  | none => 1
  | some c => if c.mentionsChicago = true then 19/20 else 1

/-- determineConfidence: step function of the observation count with the
configured thresholds 6 / 3 / 1. -/
def determineConfidence (dataPoints : ℕ) : Confidence :=
  if 6 ≤ dataPoints then Confidence.high
  else if 3 ≤ dataPoints then Confidence.medium
  else if 1 ≤ dataPoints then Confidence.low
  else Confidence.insufficient

/-- calculateUncertaintyMargin: base margin 0.15, plus 0.10 per data
point short of the high-confidence threshold 6, plus 30 percent of the
volatility, clamped to [MIN_MARGIN, MAX_MARGIN] = [0.05, 0.50]. -/
def calculateUncertaintyMargin (dataPoints : ℕ) (volatility : ℚ) : ℚ :=
  max (1/20) (min (1/2)
    (15/100 + max 0 (6 - (dataPoints : ℚ)) * (1/10) + volatility * (3/10)))

/-! ## calculateDataDrivenPhaseMultipliers -/

/-- Append a term key if it is not present (JS Map insertion order). -/
def insertTerm (acc : List Term) (t : Term) : List Term :=
  if t ∈ acc then acc else acc ++ [t]

/-- The term keys of the bids-by-term grouping map, in first-insertion
order. -/
def termKeys (bids : List HistoricalBid) : List Term :=
  bids.foldl (fun acc b => insertTerm acc b.term) []

/-- The clearing price stored in the per-term map for a phase: later bids
with the same term and phase overwrite earlier ones (Map.set), so the
last occurrence wins. -/
def lastPriceFor (bids : List HistoricalBid) (t : Term) (ph : PhaseType) : Option ℚ :=
  ((bids.filter (fun b => decide (b.term = t ∧ b.phase = ph))).map
    (fun b => b.clearingPrice)).getLast?

/-- The per-term phase-k / phase-1 price ratios: one ratio for every term
whose map has a truthy positive phase-1 price and a truthy positive
phase-k price. -/
def ratiosFor (bids : List HistoricalBid) (ph : PhaseType) : List ℚ :=
  (termKeys bids).filterMap (fun t =>
    match lastPriceFor bids t PhaseType.p1, lastPriceFor bids t ph with
    | some q1, some qk => if 0 < q1 ∧ 0 < qk then some (qk / q1) else none
    | _, _ => none)

/-- medianRatio of the source: 0 on an empty list, else the middle of the
sorted ratios (mean of the two middles for an even count). -/
def ratioMedian (ratios : List ℚ) : ℚ :=
  if ratios = [] then 0
  else
    let sorted := ratios.mergeSort (fun a b => a ≤ b)
    let mid := sorted.length / 2
    if sorted.length % 2 = 1 then sorted.getD mid 0
    else (sorted.getD (mid - 1) 0 + sorted.getD mid 0) / 2

/-- calcConfidence of calculateDataDrivenPhaseMultipliers: 0 with no
samples, 1 from 5 samples up, n/5 in between. -/
def calcConfidence (n : ℕ) : ℚ :=
  if n = 0 then 0 else if 5 ≤ n then 1 else (n : ℚ) / 5

/-- The record returned by calculateDataDrivenPhaseMultipliers. -/
structure PhaseMultipliers where
  P2_VS_P1 : ℚ
  P3_VS_P1 : ℚ
  P4_VS_P1 : ℚ
  P2_confidence : ℚ
  P3_confidence : ℚ
  P4_confidence : ℚ
deriving DecidableEq

/-- calculateDataDrivenPhaseMultipliers: per-pair median ratio when at
least 2 co-occurring terms exist, otherwise the configured defaults
PHASE_RELATIONSHIPS_DEFAULT = (1.15, 0.85, 0.70). -/
def calculateDataDrivenPhaseMultipliers (allBids : List HistoricalBid) : PhaseMultipliers :=
  ⟨if 2 ≤ (ratiosFor allBids PhaseType.p2).length then ratioMedian (ratiosFor allBids PhaseType.p2) else 23/20,
   if 2 ≤ (ratiosFor allBids PhaseType.p3).length then ratioMedian (ratiosFor allBids PhaseType.p3) else 17/20,
   if 2 ≤ (ratiosFor allBids PhaseType.p4).length then ratioMedian (ratiosFor allBids PhaseType.p4) else 7/10,
   calcConfidence (ratiosFor allBids PhaseType.p2).length,
   calcConfidence (ratiosFor allBids PhaseType.p3).length,
   calcConfidence (ratiosFor allBids PhaseType.p4).length⟩

/-! ## Win probability -/

/-- logNormalCDF: log-normal CDF by moment matching, through the erf
primitive; 0 for a non-positive argument or mean. -/
def logNormalCDF (P : Prims) (x mean stdDev : ℚ) : ℚ :=
  if x ≤ 0 ∨ mean ≤ 0 then 0
  else
    let sigmaLogSq := P.logf (1 + stdDev * stdDev / (mean * mean))
    let sigmaLog := P.sqrt sigmaLogSq
    let muLog := P.logf mean - (1/2) * sigmaLogSq
    let z := (P.logf x - muLog) / (sigmaLog * P.sqrt 2)
    (1/2) * (1 + P.erf z)

/-- The weight of historical prices a bid beats in calculateWinProbability:
full credit at or above the price, half credit within 5 percent below it. -/
def wpWeightBeaten (bid : ℚ) (prices weights : List ℚ) : ℚ :=
  ∑ i ∈ Finset.range prices.length,
    if prices.getD i 0 ≤ bid then weights.getD i 0
    else if prices.getD i 0 * (19/20) ≤ bid then weights.getD i 0 * (1/2)
    else 0

/-- empiricalProb of calculateWinProbability. -/
def wpEmpirical (bid : ℚ) (prices weights : List ℚ) : ℚ :=
  wpWeightBeaten bid prices weights / weights.sum

/-- shrinkage of calculateWinProbability: full confidence at 10 or more
data points. -/
def wpShrinkage (prices : List ℚ) : ℚ := min 1 ((prices.length : ℚ) / 10)

/-- adjustedProb of calculateWinProbability: the empirical estimate
shrunk toward 50 percent. -/
def wpAdjusted (bid : ℚ) (prices weights : List ℚ) : ℚ :=
  wpShrinkage prices * wpEmpirical bid prices weights + (1 - wpShrinkage prices) * (1/2)

/-- parametricProb of calculateWinProbability. -/
def wpParametric (P : Prims) (bid : ℚ) (expectedPrice stdDev : ℚ) : ℚ :=
  logNormalCDF P bid expectedPrice (max stdDev (expectedPrice * (15/100)))

/-- empiricalWeight of calculateWinProbability: the empirical estimate
dominates from 6 data points up. -/
def wpEmpWeight (prices : List ℚ) : ℚ := min 1 ((prices.length : ℚ) / 6)

/-- calculateWinProbability: the conformal empirical estimate shrunk
toward 50 percent on thin data, blended with the parametric log-normal
estimate, as a whole-number percentage; the pure parametric estimate
(not rounded) with no data; 0 for a non-positive bid. -/
def calculateWinProbability (P : Prims) (bid : ℚ) (prices weights : List ℚ)
    (expectedPrice stdDev : ℚ) : ℚ :=
  if bid ≤ 0 then 0
  else if prices = [] then
    if expectedPrice ≤ 0 then 50
    else logNormalCDF P bid expectedPrice (max stdDev (expectedPrice * (2/10))) * 100
  else
    jroundQ ((wpEmpWeight prices * wpAdjusted bid prices weights +
      (1 - wpEmpWeight prices) * wpParametric P bid expectedPrice stdDev) * 100)

/-- minBid of generateWinProbabilityCurve. -/
def gwMinBid (expectedPrice : ℚ) : ℚ := max 0 (jroundQ (expectedPrice * (1/2)))

/-- maxBid of generateWinProbabilityCurve. -/
def gwMaxBid (expectedPrice : ℚ) : ℚ := jroundQ (expectedPrice * (3/2))

/-- step of generateWinProbabilityCurve. -/
def gwStep (expectedPrice : ℚ) : ℚ :=
  max 1 (jroundQ ((gwMaxBid expectedPrice - gwMinBid expectedPrice) / 40))

/-- The number of samples of generateWinProbabilityCurve's loop (bid from
minBid while bid is at most maxBid, bid += step). -/
def gwCount (expectedPrice : ℚ) : ℕ :=
  (⌊(gwMaxBid expectedPrice - gwMinBid expectedPrice) / gwStep expectedPrice⌋ + 1).toNat

/-- generateWinProbabilityCurve: sample bids from 50 to 150 percent of
the expected price in about 40 equal steps of at least one point; empty
for a non-positive expected price. -/
def generateWinProbabilityCurve (P : Prims) (prices weights : List ℚ)
    (expectedPrice stdDev : ℚ) : List (ℚ × ℚ) :=
  if expectedPrice ≤ 0 then []
  else
    (List.range (gwCount expectedPrice)).map
      (fun j => (gwMinBid expectedPrice + (j : ℚ) * gwStep expectedPrice,
        calculateWinProbability P (gwMinBid expectedPrice + (j : ℚ) * gwStep expectedPrice)
          prices weights expectedPrice stdDev))

/-! ## Curve lookups -/

/-- The scan for the first adjacent pair of curve points satisfying a
bracketing predicate (the source's for-loop with break). -/
def findBracket (pred : (ℚ × ℚ) → (ℚ × ℚ) → Bool) : List (ℚ × ℚ) → Option ((ℚ × ℚ) × (ℚ × ℚ))
  | a :: b :: rest => if pred a b then some (a, b) else findBracket pred (b :: rest)
  | _ => none

/-- getWinProbabilityForBid: 50 for a missing or empty curve, 0 for a
non-positive bid, else linear interpolation between the first bracketing
pair of points (falling back to the curve endpoints), clamped at the
bracketing points. -/
def getWinProbabilityForBid (bid : ℚ) (probabilityData : Option (List (ℚ × ℚ))) : ℚ :=
  match probabilityData with
  | none => 50
  | some l =>
    if l = [] then 50
    else if bid ≤ 0 then 0
    else
      let lower := ((findBracket (fun a b => decide (a.1 ≤ bid ∧ bid ≤ b.1)) l).getD
        (l.headD (0, 0), (l.getLast?).getD (0, 0))).1
      let upper := ((findBracket (fun a b => decide (a.1 ≤ bid ∧ bid ≤ b.1)) l).getD
        (l.headD (0, 0), (l.getLast?).getD (0, 0))).2
      if bid ≤ lower.1 then lower.2
      else if upper.1 ≤ bid then upper.2
      else jroundQ (lower.2 + ((bid - lower.1) / (upper.1 - lower.1)) * (upper.2 - lower.2))

/-- getBidForTargetProbability: 0 for a missing or empty curve; clamp the
target to [0, 100]; interpolate inside the first adjacent pair of points
whose probabilities bracket the target (the bid of the lower point when
the pair has equal probabilities), else the boundary bid. -/
def getBidForTargetProbability (targetProbability : ℚ) (probabilityData : Option (List (ℚ × ℚ))) : ℚ :=
  match probabilityData with
  | none => 0
  | some l =>
    if l = [] then 0
    else
      let t := max 0 (min 100 targetProbability)
      match findBracket (fun a b => decide (a.2 ≤ t ∧ t ≤ b.2)) l with
      | some (lower, upper) =>
        if upper.2 - lower.2 = 0 then lower.1
        else jroundQ (lower.1 + ((t - lower.2) / (upper.2 - lower.2)) * (upper.1 - lower.1))
      | none =>
        if t ≤ (l.headD (0, 0)).2 then (l.headD (0, 0)).1
        else ((l.getLast?).getD (0, 0)).1

/-! ## forecastPhase (direct path)

The per-phase pipeline of forecastPhase for a phase with observations.
getCurrentTermNumber reads the system clock in the source; here the
clock-derived current term number is an explicit argument ct.  Each local
of the source is promoted to a definition (fp prefix). -/

/-- The (adjustedPrice, termNum, weight) triple built per observation:
clearing price inflated at INFLATION_RATE = 0.03 per year up to now, the
parsed term number, and the time-decay weight. -/
def fpEntries (P : Prims) (ct : ℚ) (phaseBids : List HistoricalBid) : List (ℚ × ℚ × ℚ) :=
  phaseBids.map (fun b =>
    (b.clearingPrice * P.powf (1 + 3/100) (max 0 ((ct - parseTermToNumber b.term) / 4)),
     parseTermToNumber b.term,
     calculateTimeWeight P (parseTermToNumber b.term) ct))

/-- prices array of forecastPhase. -/
def fpPrices (P : Prims) (ct : ℚ) (phaseBids : List HistoricalBid) : List ℚ :=
  (fpEntries P ct phaseBids).map (fun e => e.1)

/-- terms array of forecastPhase. -/
def fpTermNums (P : Prims) (ct : ℚ) (phaseBids : List HistoricalBid) : List ℚ :=
  (fpEntries P ct phaseBids).map (fun e => e.2.1)

/-- weights array of forecastPhase. -/
def fpWeights (P : Prims) (ct : ℚ) (phaseBids : List HistoricalBid) : List ℚ :=
  (fpEntries P ct phaseBids).map (fun e => e.2.2)

/-- bidsPlaced array of forecastPhase: only the positive bid counts are
pushed. -/
def fpBidsPlaced (phaseBids : List HistoricalBid) : List ℚ :=
  (phaseBids.filter (fun b => decide (0 < b.bidsPlaced))).map (fun b => b.bidsPlaced)

/-- spotsAvailable array of forecastPhase: only the positive seat counts
are pushed. -/
def fpSpots (phaseBids : List HistoricalBid) : List ℚ :=
  (phaseBids.filter (fun b => decide (0 < b.spotsAvailable))).map (fun b => b.spotsAvailable)

/-- stats of forecastPhase. -/
def fpStats (P : Prims) (ct : ℚ) (phaseBids : List HistoricalBid) : WStats :=
  weightedStatistics P (fpPrices P ct phaseBids) (fpWeights P ct phaseBids)

/-- trendResult of forecastPhase. -/
def fpTrendResult (P : Prims) (ct : ℚ) (phaseBids : List HistoricalBid) : TrendResult :=
  detectTrend P (fpPrices P ct phaseBids) (fpTermNums P ct phaseBids) (fpWeights P ct phaseBids)

/-- basePrice of forecastPhase: the weighted mean. -/
def fpBasePrice (P : Prims) (ct : ℚ) (phaseBids : List HistoricalBid) : ℚ :=
  (fpStats P ct phaseBids).mean

/-- trendMultiplier of forecastPhase: up to +10 percent for a rising
trend, up to -8 percent for a falling one. -/
def fpTrendMultiplier (P : Prims) (ct : ℚ) (phaseBids : List HistoricalBid) : ℚ :=
  if (fpTrendResult P ct phaseBids).trend = Trend.rising then
    1 + (1/10) * (fpTrendResult P ct phaseBids).strength
  else if (fpTrendResult P ct phaseBids).trend = Trend.falling then
    1 - (2/25) * (fpTrendResult P ct phaseBids).strength
  else 1

/-- demandPressure of forecastPhase. -/
def fpDemandPressure (P : Prims) (ct : ℚ) (phaseBids : List HistoricalBid) : ℚ :=
  calculateDemandPressure P (fpBidsPlaced phaseBids) (fpSpots phaseBids) (fpWeights P ct phaseBids)

/-- demandMultiplier of forecastPhase: applied only when some positive
bid counts exist. -/
def fpDemandMultiplier (P : Prims) (ct : ℚ) (phaseBids : List HistoricalBid) : ℚ :=
  if fpBidsPlaced phaseBids = [] then 1
  else 1 + (fpDemandPressure P ct phaseBids - 1/2) * (2/10)

/-- totalMultiplier of forecastPhase: the product of the trend, rating,
demand, time-slot and campus multipliers. -/
def fpTotalMultiplier (P : Prims) (ct : ℚ) (phaseBids : List HistoricalBid)
    (professorData : Option ProfessorData) (meetingTime : Option TimeTok)
    (campus : Option CampusTok) : ℚ :=
  fpTrendMultiplier P ct phaseBids *
    calculateRatingImpact P (professorData.map (fun d => d.rating)) *
    fpDemandMultiplier P ct phaseBids *
    getTimeSlotAdjustment meetingTime *
    getCampusAdjustment campus

/-- expectedPrice of forecastPhase. -/
def fpExpectedPrice (P : Prims) (ct : ℚ) (phaseBids : List HistoricalBid)
    (professorData : Option ProfessorData) (meetingTime : Option TimeTok)
    (campus : Option CampusTok) : ℚ :=
  jroundQ (fpBasePrice P ct phaseBids * fpTotalMultiplier P ct phaseBids professorData meetingTime campus)

/-- volatility of forecastPhase: the coefficient of variation. -/
def fpVolatility (P : Prims) (ct : ℚ) (phaseBids : List HistoricalBid) : ℚ :=
  if 0 < (fpStats P ct phaseBids).mean then
    (fpStats P ct phaseBids).stdDev / (fpStats P ct phaseBids).mean
  else 0

/-- uncertaintyMargin of forecastPhase. -/
def fpMargin (P : Prims) (ct : ℚ) (phaseBids : List HistoricalBid) : ℚ :=
  calculateUncertaintyMargin (fpPrices P ct phaseBids).length (fpVolatility P ct phaseBids)

/-- safeBid of forecastPhase. -/
def fpSafeBid (P : Prims) (ct : ℚ) (phaseBids : List HistoricalBid)
    (professorData : Option ProfessorData) (meetingTime : Option TimeTok)
    (campus : Option CampusTok) : ℚ :=
  jroundQ (fpExpectedPrice P ct phaseBids professorData meetingTime campus *
    (1 + fpMargin P ct phaseBids))

/-- aggressiveBid of forecastPhase. -/
def fpAggressiveBid (P : Prims) (ct : ℚ) (phaseBids : List HistoricalBid)
    (professorData : Option ProfessorData) (meetingTime : Option TimeTok)
    (campus : Option CampusTok) : ℚ :=
  jroundQ (fpExpectedPrice P ct phaseBids professorData meetingTime campus)

/-- minimumBid of forecastPhase. -/
def fpMinimumBid (P : Prims) (ct : ℚ) (phaseBids : List HistoricalBid)
    (professorData : Option ProfessorData) (meetingTime : Option TimeTok)
    (campus : Option CampusTok) : ℚ :=
  jroundQ (fpExpectedPrice P ct phaseBids professorData meetingTime campus *
    (1 - fpMargin P ct phaseBids * (1/2)))

/-- The probability-curve input prices of forecastPhase: each price
scaled by totalMultiplier / (mean or 1) * basePrice. -/
def fpCurve (P : Prims) (ct : ℚ) (phaseBids : List HistoricalBid)
    (professorData : Option ProfessorData) (meetingTime : Option TimeTok)
    (campus : Option CampusTok) : List (ℚ × ℚ) :=
  generateWinProbabilityCurve P
    ((fpPrices P ct phaseBids).map (fun p =>
      p * fpTotalMultiplier P ct phaseBids professorData meetingTime campus /
        (if (fpStats P ct phaseBids).mean = 0 then 1 else (fpStats P ct phaseBids).mean) *
        fpBasePrice P ct phaseBids))
    (fpWeights P ct phaseBids)
    (fpExpectedPrice P ct phaseBids professorData meetingTime campus)
    ((fpStats P ct phaseBids).stdDev * fpTotalMultiplier P ct phaseBids professorData meetingTime campus)

/-- factors of forecastPhase, in push order (description strings are
presentation text and are not modelled). -/
def fpFactors (P : Prims) (ct : ℚ) (phaseBids : List HistoricalBid)
    (professorData : Option ProfessorData) (meetingTime : Option TimeTok)
    (campus : Option CampusTok) : List ForecastFactor :=
  (if (fpTrendResult P ct phaseBids).trend = Trend.rising then
    [⟨"Rising Trend", (fpTrendMultiplier P ct phaseBids - 1) * fpBasePrice P ct phaseBids⟩]
   else if (fpTrendResult P ct phaseBids).trend = Trend.falling then
    [⟨"Falling Trend", (fpTrendMultiplier P ct phaseBids - 1) * fpBasePrice P ct phaseBids⟩]
   else []) ++
  (if calculateRatingImpact P (professorData.map (fun d => d.rating)) ≠ 1 then
    [⟨"Professor Rating",
      (calculateRatingImpact P (professorData.map (fun d => d.rating)) - 1) * fpBasePrice P ct phaseBids⟩]
   else []) ++
  (if fpBidsPlaced phaseBids ≠ [] then
    [⟨"Demand Pressure", (fpDemandMultiplier P ct phaseBids - 1) * fpBasePrice P ct phaseBids⟩]
   else []) ++
  (if getTimeSlotAdjustment meetingTime ≠ 1 then
    [⟨"Time Slot", (getTimeSlotAdjustment meetingTime - 1) * fpBasePrice P ct phaseBids⟩]
   else []) ++
  (if getCampusAdjustment campus ≠ 1 then
    [⟨"Campus Location", (getCampusAdjustment campus - 1) * fpBasePrice P ct phaseBids⟩]
   else []) ++
  (if (fpTrendResult P ct phaseBids).isSignificant = true ∧
      (fpTrendResult P ct phaseBids).trend ≠ Trend.stable then
    [⟨"Trend Significance", 0⟩]
   else [])

/-- The direct branch of forecastPhase, reached whenever the phase has at
least one observation (the source's prices array is built one-to-one from
phaseBids, so prices.length === 0 exactly when phaseBids is empty). -/
def forecastPhaseDirect (P : Prims) (ct : ℚ) (phase : PhaseType)
    (phaseBids : List HistoricalBid) (professorData : Option ProfessorData)
    (meetingTime : Option TimeTok) (campus : Option CampusTok) : ForecastResult :=
  { phase := phase
    expectedPrice := fpExpectedPrice P ct phaseBids professorData meetingTime campus
    safeBid := fpSafeBid P ct phaseBids professorData meetingTime campus
    aggressiveBid := fpAggressiveBid P ct phaseBids professorData meetingTime campus
    minimumBid := fpMinimumBid P ct phaseBids professorData meetingTime campus
    confidence := determineConfidence (fpPrices P ct phaseBids).length
    dataPoints := (fpPrices P ct phaseBids).length
    trend := (fpTrendResult P ct phaseBids).trend
    trendStrength := (fpTrendResult P ct phaseBids).strength
    trendSignificant := some (fpTrendResult P ct phaseBids).isSignificant
    volatility := fpVolatility P ct phaseBids
    demandPressure := fpDemandPressure P ct phaseBids
    uncertaintyMargin := some (fpMargin P ct phaseBids)
    factors := fpFactors P ct phaseBids professorData meetingTime campus
    probabilityData := some (fpCurve P ct phaseBids professorData meetingTime campus) }

/-! ## estimateFromOtherPhases -/

/-- The phase-1 observations of the whole history (phase === "1"). -/
def phase1BidsOf (allBids : List HistoricalBid) : List HistoricalBid :=
  allBids.filter (fun b => decide (b.phase = PhaseType.p1))

/-- The phase-2 observations of the whole history (phase === "2"). -/
def phase2BidsOf (allBids : List HistoricalBid) : List HistoricalBid :=
  allBids.filter (fun b => decide (b.phase = PhaseType.p2))

/-- The base observations for a cross-phase estimate: whichever of phase
1 and phase 2 has the most data (phase 1 on ties). -/
def baseBidsOf (allBids : List HistoricalBid) : List HistoricalBid :=
  if (phase2BidsOf allBids).length ≤ (phase1BidsOf allBids).length then phase1BidsOf allBids
  else phase2BidsOf allBids

/-- The base phase for a cross-phase estimate. -/
def basePhaseOf (allBids : List HistoricalBid) : PhaseType :=
  if (phase2BidsOf allBids).length ≤ (phase1BidsOf allBids).length then PhaseType.p1
  else PhaseType.p2

/-- The all-zero insufficient-confidence result returned when even the
base phase has no data. -/
def efopInsufficient (targetPhase : PhaseType) : ForecastResult :=
  { phase := targetPhase
    expectedPrice := 0
    safeBid := 0
    aggressiveBid := 0
    minimumBid := 0
    confidence := Confidence.insufficient
    dataPoints := 0
    trend := Trend.unknown
    trendStrength := 0
    trendSignificant := none
    volatility := 0
    demandPressure := 1/2
    uncertaintyMargin := none
    factors := [⟨"No Data", 0⟩]
    probabilityData := none }

/-- The phase-relationship multiplier of estimateFromOtherPhases: read
off the computed phase multipliers when the base is phase 1, routed
through the phase-2-to-phase-1 ratio otherwise; 1 on the switch cases the
source leaves untouched. -/
def crossMultiplier (targetPhase basePhase : PhaseType) (m : PhaseMultipliers) : ℚ :=
  match basePhase with
  | PhaseType.p1 =>
    match targetPhase with
    | PhaseType.p2 => m.P2_VS_P1
    | PhaseType.p3 => m.P3_VS_P1
    | PhaseType.p4 => m.P4_VS_P1
    | PhaseType.pwyb => m.P4_VS_P1
    | PhaseType.p1 => 1
  | _ =>
    match targetPhase with
    | PhaseType.p1 => 1 / m.P2_VS_P1
    | PhaseType.p3 => m.P3_VS_P1 / m.P2_VS_P1
    | PhaseType.p4 => m.P4_VS_P1 / m.P2_VS_P1
    | PhaseType.pwyb => m.P4_VS_P1 / m.P2_VS_P1
    | PhaseType.p2 => 1

/-- The confidence of a cross-phase estimate: medium only when the ratio
confidence exceeds 0.8 with a phase-1 base, low on every other path
(the initial value of the source's confidence variable). -/
def crossConfidence (targetPhase basePhase : PhaseType) (m : PhaseMultipliers) : Confidence :=
  match basePhase with
  | PhaseType.p1 =>
    match targetPhase with
    | PhaseType.p2 => if 8/10 < m.P2_confidence then Confidence.medium else Confidence.low
    | PhaseType.p3 => if 8/10 < m.P3_confidence then Confidence.medium else Confidence.low
    | PhaseType.p4 => if 8/10 < m.P4_confidence then Confidence.medium else Confidence.low
    | PhaseType.pwyb => if 8/10 < m.P4_confidence then Confidence.medium else Confidence.low
    | PhaseType.p1 => Confidence.low
  | _ => Confidence.low

/-- estimateFromOtherPhases: derive a phase with no direct data from the
richer of phases 1 and 2, scaling the base forecast's tiers by the
data-driven (or default) phase ratio, with EXTRA_UNCERTAINTY = 1.15 on
the safe bid; the all-zero insufficient result when the base phase has no
data either.  The source calls forecastPhase on the nonempty base bids,
which is its direct branch (forecastPhaseDirect). -/
def estimateFromOtherPhases (P : Prims) (ct : ℚ) (targetPhase : PhaseType)
    (allBids : List HistoricalBid) (professorData : Option ProfessorData)
    (meetingTime : Option TimeTok) (campus : Option CampusTok) : ForecastResult :=
  if baseBidsOf allBids = [] then efopInsufficient targetPhase
  else
    let base := forecastPhaseDirect P ct (basePhaseOf allBids) (baseBidsOf allBids)
      professorData meetingTime campus
    let m := calculateDataDrivenPhaseMultipliers allBids
    let mult := crossMultiplier targetPhase (basePhaseOf allBids) m
    { phase := targetPhase
      expectedPrice := jroundQ (base.expectedPrice * mult)
      safeBid := jroundQ (base.safeBid * mult * (23/20))
      aggressiveBid := jroundQ (base.aggressiveBid * mult)
      minimumBid := jroundQ (base.minimumBid * mult)
      confidence := crossConfidence targetPhase (basePhaseOf allBids) m
      dataPoints := base.dataPoints
      trend := base.trend
      trendStrength := base.trendStrength
      trendSignificant := none
      volatility := base.volatility
      demandPressure := base.demandPressure
      uncertaintyMargin := none
      factors := base.factors ++ [⟨"Cross-Phase Estimate", (mult - 1) * base.expectedPrice⟩]
      probabilityData := some (generateWinProbabilityCurve P [] []
        (jroundQ (base.expectedPrice * mult))
        (jroundQ (base.expectedPrice * mult) * base.volatility)) }

/-- forecastPhase: the cross-phase estimate when the phase has no
observations (the prices array is empty exactly when phaseBids is),
otherwise the direct statistical forecast. -/
def forecastPhase (P : Prims) (ct : ℚ) (phase : PhaseType)
    (phaseBids allBids : List HistoricalBid) (professorData : Option ProfessorData)
    (meetingTime : Option TimeTok) (campus : Option CampusTok) : ForecastResult :=
  if phaseBids = [] then
    estimateFromOtherPhases P ct phase allBids professorData meetingTime campus
  else forecastPhaseDirect P ct phase phaseBids professorData meetingTime campus

/-- generateForecast: split the history by phase (the phase-4 bucket also
collects PWYB observations, matching the lowercase-substring filter of
the source on the PhaseType values) and forecast all four phases.
The clock-derived current term number is the explicit argument ct. -/
def generateForecast (P : Prims) (ct : ℚ) (context : CourseContext) : CompleteForecast :=
  { courseId := context.courseId
    professor := context.professor
    phase1 := forecastPhase P ct PhaseType.p1
      (context.historicalBids.filter (fun b => decide (b.phase = PhaseType.p1)))
      context.historicalBids context.professorData context.meetingTime context.campus
    phase2 := forecastPhase P ct PhaseType.p2
      (context.historicalBids.filter (fun b => decide (b.phase = PhaseType.p2)))
      context.historicalBids context.professorData context.meetingTime context.campus
    phase3 := forecastPhase P ct PhaseType.p3
      (context.historicalBids.filter (fun b => decide (b.phase = PhaseType.p3)))
      context.historicalBids context.professorData context.meetingTime context.campus
    phase4 := forecastPhase P ct PhaseType.p4
      (context.historicalBids.filter (fun b => decide (b.phase = PhaseType.p4 ∨ b.phase = PhaseType.pwyb)))
      context.historicalBids context.professorData context.meetingTime context.campus }

/-! ## Basic lemmas about rounding and margins -/

theorem jroundQ_mono {a b : ℚ} (h : a ≤ b) : jroundQ a ≤ jroundQ b := by
  unfold jroundQ jround
  exact_mod_cast Int.floor_le_floor (by linarith)

theorem jroundQ_nonneg {a : ℚ} (h : 0 ≤ a) : 0 ≤ jroundQ a := by
  unfold jroundQ jround
  have : (0 : ℤ) ≤ ⌊a + 1/2⌋ := Int.le_floor.mpr (by push_cast; linarith)
  exact_mod_cast this

theorem margin_lower (n : ℕ) (v : ℚ) : 1/20 ≤ calculateUncertaintyMargin n v :=
  le_max_left _ _

theorem margin_upper (n : ℕ) (v : ℚ) : calculateUncertaintyMargin n v ≤ 1/2 := by
  unfold calculateUncertaintyMargin
  exact max_le (by norm_num) (min_le_left _ _)

/-- A fixed interpretation of the primitives used to instantiate
hypotheses at concrete inputs: exp and pow are constantly 1 (exp never
vanishes and pow is only exercised at exponent 0, where Math.pow gives
1), the remaining primitives are constantly 0. -/
def trivPrims : Prims :=
  ⟨fun _ => 1, fun _ => 0, fun _ => 0, fun _ => 0, fun _ => 0, fun _ _ => 1, fun _ _ => 1⟩

/-! ## Claim C10 -/

/-- Claim C10: at the public curve-lookup interface, for every bid value
(positive or not), an undefined or empty probability curve makes
getWinProbabilityForBid return 50; and on every non-empty curve, any bid
that is not positive returns probability 0. -/
theorem c10_lookup_guards (bid : ℚ) (l : List (ℚ × ℚ)) (hl : l ≠ []) :
    getWinProbabilityForBid bid none = 50 ∧
    getWinProbabilityForBid bid (some []) = 50 ∧
    (bid ≤ 0 → getWinProbabilityForBid bid (some l) = 0) := by
  refine ⟨rfl, rfl, fun hb => ?_⟩
  show (if l = [] then 50 else if bid ≤ 0 then (0 : ℚ) else _) = 0
  rw [if_neg hl, if_pos hb]

/-- Witness for C10: the undefined/empty-curve guards at a concrete
positive bid, and the non-positive-bid guard on a concrete non-empty
curve. -/
theorem c10_lookup_guards_witness :
    (getWinProbabilityForBid 7 none = 50 ∧
      getWinProbabilityForBid 7 (some []) = 50 ∧
      ((7 : ℚ) ≤ 0 → getWinProbabilityForBid 7 (some [(10, 40), (20, 80)]) = 0)) ∧
    getWinProbabilityForBid (-3) (some [(10, 40), (20, 80)]) = 0 :=
  ⟨c10_lookup_guards 7 [(10, 40), (20, 80)] (by decide),
   (c10_lookup_guards (-3) [(10, 40), (20, 80)] (by decide)).2.2 (by norm_num)⟩

/-! ## Claim C2 -/

/-- Claim C2: on a CourseContext whose observation list is empty for all
phases, generateForecast returns (totally, with no error path) four
ForecastResults each with confidence insufficient and all monetary fields
(expectedPrice, safeBid, aggressiveBid, minimumBid) equal to 0. -/
theorem c2_empty_context (P : Prims) (ct : ℚ) (context : CourseContext)
    (h : context.historicalBids = []) :
    ((generateForecast P ct context).phase1.confidence = Confidence.insufficient ∧
      (generateForecast P ct context).phase1.expectedPrice = 0 ∧
      (generateForecast P ct context).phase1.safeBid = 0 ∧
      (generateForecast P ct context).phase1.aggressiveBid = 0 ∧
      (generateForecast P ct context).phase1.minimumBid = 0) ∧
    ((generateForecast P ct context).phase2.confidence = Confidence.insufficient ∧
      (generateForecast P ct context).phase2.expectedPrice = 0 ∧
      (generateForecast P ct context).phase2.safeBid = 0 ∧
      (generateForecast P ct context).phase2.aggressiveBid = 0 ∧
      (generateForecast P ct context).phase2.minimumBid = 0) ∧
    ((generateForecast P ct context).phase3.confidence = Confidence.insufficient ∧
      (generateForecast P ct context).phase3.expectedPrice = 0 ∧
      (generateForecast P ct context).phase3.safeBid = 0 ∧
      (generateForecast P ct context).phase3.aggressiveBid = 0 ∧
      (generateForecast P ct context).phase3.minimumBid = 0) ∧
    ((generateForecast P ct context).phase4.confidence = Confidence.insufficient ∧
      (generateForecast P ct context).phase4.expectedPrice = 0 ∧
      (generateForecast P ct context).phase4.safeBid = 0 ∧
      (generateForecast P ct context).phase4.aggressiveBid = 0 ∧
      (generateForecast P ct context).phase4.minimumBid = 0) := by
  obtain ⟨cid, cname, prof, bids, pd, mt, c⟩ := context
  simp only at h
  subst h
  exact ⟨⟨rfl, rfl, rfl, rfl, rfl⟩, ⟨rfl, rfl, rfl, rfl, rfl⟩,
    ⟨rfl, rfl, rfl, rfl, rfl⟩, ⟨rfl, rfl, rfl, rfl, rfl⟩⟩

/-- Witness for C2 at a concrete empty context. -/
theorem c2_empty_context_witness :
    ((generateForecast trivPrims 20243 ⟨"MKTG-101", "Marketing", "Prof", [], none, none, none⟩).phase1.confidence
        = Confidence.insufficient ∧
      (generateForecast trivPrims 20243 ⟨"MKTG-101", "Marketing", "Prof", [], none, none, none⟩).phase1.expectedPrice = 0 ∧
      (generateForecast trivPrims 20243 ⟨"MKTG-101", "Marketing", "Prof", [], none, none, none⟩).phase1.safeBid = 0 ∧
      (generateForecast trivPrims 20243 ⟨"MKTG-101", "Marketing", "Prof", [], none, none, none⟩).phase1.aggressiveBid = 0 ∧
      (generateForecast trivPrims 20243 ⟨"MKTG-101", "Marketing", "Prof", [], none, none, none⟩).phase1.minimumBid = 0) ∧
    ((generateForecast trivPrims 20243 ⟨"MKTG-101", "Marketing", "Prof", [], none, none, none⟩).phase2.confidence
        = Confidence.insufficient ∧
      (generateForecast trivPrims 20243 ⟨"MKTG-101", "Marketing", "Prof", [], none, none, none⟩).phase2.expectedPrice = 0 ∧
      (generateForecast trivPrims 20243 ⟨"MKTG-101", "Marketing", "Prof", [], none, none, none⟩).phase2.safeBid = 0 ∧
      (generateForecast trivPrims 20243 ⟨"MKTG-101", "Marketing", "Prof", [], none, none, none⟩).phase2.aggressiveBid = 0 ∧
      (generateForecast trivPrims 20243 ⟨"MKTG-101", "Marketing", "Prof", [], none, none, none⟩).phase2.minimumBid = 0) ∧
    ((generateForecast trivPrims 20243 ⟨"MKTG-101", "Marketing", "Prof", [], none, none, none⟩).phase3.confidence
        = Confidence.insufficient ∧
      (generateForecast trivPrims 20243 ⟨"MKTG-101", "Marketing", "Prof", [], none, none, none⟩).phase3.expectedPrice = 0 ∧
      (generateForecast trivPrims 20243 ⟨"MKTG-101", "Marketing", "Prof", [], none, none, none⟩).phase3.safeBid = 0 ∧
      (generateForecast trivPrims 20243 ⟨"MKTG-101", "Marketing", "Prof", [], none, none, none⟩).phase3.aggressiveBid = 0 ∧
      (generateForecast trivPrims 20243 ⟨"MKTG-101", "Marketing", "Prof", [], none, none, none⟩).phase3.minimumBid = 0) ∧
    ((generateForecast trivPrims 20243 ⟨"MKTG-101", "Marketing", "Prof", [], none, none, none⟩).phase4.confidence
        = Confidence.insufficient ∧
      (generateForecast trivPrims 20243 ⟨"MKTG-101", "Marketing", "Prof", [], none, none, none⟩).phase4.expectedPrice = 0 ∧
      (generateForecast trivPrims 20243 ⟨"MKTG-101", "Marketing", "Prof", [], none, none, none⟩).phase4.safeBid = 0 ∧
      (generateForecast trivPrims 20243 ⟨"MKTG-101", "Marketing", "Prof", [], none, none, none⟩).phase4.aggressiveBid = 0 ∧
      (generateForecast trivPrims 20243 ⟨"MKTG-101", "Marketing", "Prof", [], none, none, none⟩).phase4.minimumBid = 0) :=
  c2_empty_context trivPrims 20243 ⟨"MKTG-101", "Marketing", "Prof", [], none, none, none⟩ rfl

/-! ## Claim C1 -/

theorem fp_tiers_ordered (P : Prims) (ct : ℚ) (phaseBids : List HistoricalBid)
    (pd : Option ProfessorData) (mt : Option TimeTok) (c : Option CampusTok)
    (h : 0 ≤ fpExpectedPrice P ct phaseBids pd mt c) :
    fpMinimumBid P ct phaseBids pd mt c ≤ fpAggressiveBid P ct phaseBids pd mt c ∧
    fpAggressiveBid P ct phaseBids pd mt c ≤ fpSafeBid P ct phaseBids pd mt c := by
  have hm1 : 1/20 ≤ fpMargin P ct phaseBids := by
    unfold fpMargin; exact margin_lower _ _
  have hm2 : fpMargin P ct phaseBids ≤ 1/2 := by
    unfold fpMargin; exact margin_upper _ _
  unfold fpMinimumBid fpAggressiveBid fpSafeBid
  set E := fpExpectedPrice P ct phaseBids pd mt c with hE
  set m := fpMargin P ct phaseBids with hmdef
  constructor
  · refine jroundQ_mono ?_
    nlinarith
  · refine jroundQ_mono ?_
    nlinarith

theorem ratiosFor_pos (bids : List HistoricalBid) (ph : PhaseType) :
    ∀ r ∈ ratiosFor bids ph, 0 < r := by
  intro r hr
  obtain ⟨t, _, hf⟩ := List.mem_filterMap.mp hr
  revert hf
  cases h1 : lastPriceFor bids t PhaseType.p1 with
  | none => intro hf; simp at hf
  | some q1 =>
    cases h2 : lastPriceFor bids t ph with
    | none => intro hf; simp at hf
    | some qk =>
      intro hf
      simp only at hf
      split at hf
      · rename_i hc
        cases hf
        exact div_pos hc.2 hc.1
      · simp at hf

theorem getD_mem_of_lt {l : List ℚ} {i : ℕ} (h : i < l.length) : l.getD i 0 ∈ l := by
  rw [List.getD_eq_getElem l 0 h]
  exact List.getElem_mem h

theorem ratioMedian_pos (ratios : List ℚ) (hne : ratios ≠ [])
    (hpos : ∀ r ∈ ratios, 0 < r) : 0 < ratioMedian ratios := by
  unfold ratioMedian
  rw [if_neg hne]
  have hperm : (ratios.mergeSort (fun a b => a ≤ b)).Perm ratios := List.mergeSort_perm _ _
  have hlen : (ratios.mergeSort (fun a b => a ≤ b)).length = ratios.length := hperm.length_eq
  have hlpos : 0 < ratios.length := List.length_pos.mpr hne
  have hspos : ∀ r ∈ ratios.mergeSort (fun a b => a ≤ b), 0 < r :=
    fun r hr => hpos r (hperm.mem_iff.mp hr)
  set s := ratios.mergeSort (fun a b => a ≤ b) with hs
  have hmid : s.length / 2 < s.length := Nat.div_lt_self (hlen ▸ hlpos) (by norm_num)
  show 0 < (if s.length % 2 = 1 then s.getD (s.length / 2) 0
    else (s.getD (s.length / 2 - 1) 0 + s.getD (s.length / 2) 0) / 2)
  split
  · exact hspos _ (getD_mem_of_lt hmid)
  · have hmid1 : s.length / 2 - 1 < s.length := lt_of_le_of_lt (Nat.sub_le _ _) hmid
    have ha := hspos _ (getD_mem_of_lt hmid1)
    have hb := hspos _ (getD_mem_of_lt hmid)
    positivity

theorem phaseMultipliers_pos (allBids : List HistoricalBid) :
    0 < (calculateDataDrivenPhaseMultipliers allBids).P2_VS_P1 ∧
    0 < (calculateDataDrivenPhaseMultipliers allBids).P3_VS_P1 ∧
    0 < (calculateDataDrivenPhaseMultipliers allBids).P4_VS_P1 := by
  unfold calculateDataDrivenPhaseMultipliers
  refine ⟨?_, ?_, ?_⟩ <;>
  · simp only
    split
    · rename_i hlen
      refine ratioMedian_pos _ (fun hemp => ?_) (ratiosFor_pos allBids _)
      rw [hemp] at hlen
      simp at hlen
    · norm_num

theorem crossMultiplier_pos (t b : PhaseType) (allBids : List HistoricalBid) :
    0 < crossMultiplier t b (calculateDataDrivenPhaseMultipliers allBids) := by
  obtain ⟨h2, h3, h4⟩ := phaseMultipliers_pos allBids
  cases b <;> cases t <;> simp only [crossMultiplier] <;>
    first
      | exact h2
      | exact h3
      | exact h4
      | exact div_pos one_pos h2
      | exact div_pos h3 h2
      | exact div_pos h4 h2
      | norm_num

/-- Claim C1: on both forecasting paths, given a non-negative expected
price (and, on the cross-phase path, a non-negative expected price for
the base phase whenever it has data) the three bid tiers satisfy
minimumBid at most aggressiveBid at most safeBid.  The uncertainty margin
needs no separate hypothesis: calculateUncertaintyMargin always lands in
the configured [0.05, 0.50] range (margin_lower / margin_upper). -/
theorem c1_bid_tiers_ordered (P : Prims) (ct : ℚ) (phase targetPhase : PhaseType)
    (phaseBids allBids : List HistoricalBid) (pd : Option ProfessorData)
    (mt : Option TimeTok) (c : Option CampusTok)
    (hdir : 0 ≤ (forecastPhaseDirect P ct phase phaseBids pd mt c).expectedPrice)
    (hbase : baseBidsOf allBids = [] ∨
      0 ≤ (forecastPhaseDirect P ct (basePhaseOf allBids) (baseBidsOf allBids) pd mt c).expectedPrice) :
    ((forecastPhaseDirect P ct phase phaseBids pd mt c).minimumBid ≤
        (forecastPhaseDirect P ct phase phaseBids pd mt c).aggressiveBid ∧
      (forecastPhaseDirect P ct phase phaseBids pd mt c).aggressiveBid ≤
        (forecastPhaseDirect P ct phase phaseBids pd mt c).safeBid) ∧
    ((estimateFromOtherPhases P ct targetPhase allBids pd mt c).minimumBid ≤
        (estimateFromOtherPhases P ct targetPhase allBids pd mt c).aggressiveBid ∧
      (estimateFromOtherPhases P ct targetPhase allBids pd mt c).aggressiveBid ≤
        (estimateFromOtherPhases P ct targetPhase allBids pd mt c).safeBid) := by
  constructor
  · exact fp_tiers_ordered P ct phaseBids pd mt c hdir
  · unfold estimateFromOtherPhases
    by_cases hb0 : baseBidsOf allBids = []
    · rw [if_pos hb0]
      exact ⟨le_refl _, le_refl _⟩
    · rw [if_neg hb0]
      have hpos := hbase.resolve_left hb0
      have hbord := fp_tiers_ordered P ct (baseBidsOf allBids) pd mt c hpos
      have hmult := crossMultiplier_pos targetPhase (basePhaseOf allBids) allBids
      have hmarg' : 1/20 ≤ fpMargin P ct (baseBidsOf allBids) := by
        unfold fpMargin; exact margin_lower _ _
      have hsafe : 0 ≤ fpSafeBid P ct (baseBidsOf allBids) pd mt c := by
        refine jroundQ_nonneg (mul_nonneg hpos ?_)
        linarith
      simp only [forecastPhaseDirect] at hbord hsafe ⊢
      constructor
      · exact jroundQ_mono (mul_le_mul_of_nonneg_right hbord.1 hmult.le)
      · refine jroundQ_mono ?_
        have h1 : fpAggressiveBid P ct (baseBidsOf allBids) pd mt c *
            crossMultiplier targetPhase (basePhaseOf allBids) (calculateDataDrivenPhaseMultipliers allBids) ≤
            fpSafeBid P ct (baseBidsOf allBids) pd mt c *
            crossMultiplier targetPhase (basePhaseOf allBids) (calculateDataDrivenPhaseMultipliers allBids) :=
          mul_le_mul_of_nonneg_right hbord.2 hmult.le
        nlinarith [mul_nonneg hsafe hmult.le]

/-- A one-observation phase-1 history used to instantiate theorems. -/
def sampleBid1 : HistoricalBid :=
  ⟨some (Season.fall, 2024), PhaseType.p1, 2, 0, 0⟩

/-- Witness for C1: the tier ordering at a concrete one-observation
history, on both paths. -/
theorem c1_bid_tiers_ordered_witness :
    ((forecastPhaseDirect trivPrims 20243 PhaseType.p1 [sampleBid1] none none none).minimumBid ≤
        (forecastPhaseDirect trivPrims 20243 PhaseType.p1 [sampleBid1] none none none).aggressiveBid ∧
      (forecastPhaseDirect trivPrims 20243 PhaseType.p1 [sampleBid1] none none none).aggressiveBid ≤
        (forecastPhaseDirect trivPrims 20243 PhaseType.p1 [sampleBid1] none none none).safeBid) ∧
    ((estimateFromOtherPhases trivPrims 20243 PhaseType.p2 [sampleBid1] none none none).minimumBid ≤
        (estimateFromOtherPhases trivPrims 20243 PhaseType.p2 [sampleBid1] none none none).aggressiveBid ∧
      (estimateFromOtherPhases trivPrims 20243 PhaseType.p2 [sampleBid1] none none none).aggressiveBid ≤
        (estimateFromOtherPhases trivPrims 20243 PhaseType.p2 [sampleBid1] none none none).safeBid) :=
  c1_bid_tiers_ordered trivPrims 20243 PhaseType.p1 PhaseType.p2 [sampleBid1] [sampleBid1]
    none none none (by decide) (Or.inr (by decide))

/-! ## Claim C3 -/

theorem crossConfidence_ne_high (t b : PhaseType) (m : PhaseMultipliers) :
    crossConfidence t b m ≠ Confidence.high := by
  cases b <;> cases t <;> simp only [crossConfidence] <;> intro h <;>
    first
      | (split at h <;> simp at h)
      | simp at h

/-- Counterexample to C3 as stated: with a single phase-1 observation at
price 2 (no co-occurring terms, so the configured default ratio 1.15
applies), the derived phase-2 expected price is the whole-point rounding
2 of 2 * 1.15, not the exact product 2.3 the claim asserts. -/
theorem c3_counterexample :
    (ratiosFor [sampleBid1] PhaseType.p2).length < 2 ∧
    (forecastPhase trivPrims 20243 PhaseType.p2 [] [sampleBid1] none none none).expectedPrice ≠
      (forecastPhaseDirect trivPrims 20243 (basePhaseOf [sampleBid1]) (baseBidsOf [sampleBid1])
        none none none).expectedPrice * (23/20) := by
  constructor
  · decide
  · decide

/-- Claim C3 as amended: for a phase with zero direct observations whose
base phase (the richer of phases 1 and 2) has observations, the derived
expected price equals the base expected price times the phase ratio,
rounded to a whole point; the ratio read off the multiplier table is the
data-driven median of the per-term phase-price ratios when at least 2
co-occurring terms exist and the configured default otherwise; and the
derived confidence is never high. -/
theorem c3_cross_phase_price (P : Prims) (ct : ℚ) (target : PhaseType)
    (allBids : List HistoricalBid) (pd : Option ProfessorData)
    (mt : Option TimeTok) (c : Option CampusTok)
    (hbase : baseBidsOf allBids ≠ []) :
    (forecastPhase P ct target [] allBids pd mt c).expectedPrice =
      jroundQ ((forecastPhaseDirect P ct (basePhaseOf allBids) (baseBidsOf allBids) pd mt c).expectedPrice *
        crossMultiplier target (basePhaseOf allBids) (calculateDataDrivenPhaseMultipliers allBids)) ∧
    (forecastPhase P ct target [] allBids pd mt c).confidence ≠ Confidence.high ∧
    (calculateDataDrivenPhaseMultipliers allBids).P2_VS_P1 =
      (if 2 ≤ (ratiosFor allBids PhaseType.p2).length then ratioMedian (ratiosFor allBids PhaseType.p2)
       else 23/20) ∧
    (calculateDataDrivenPhaseMultipliers allBids).P3_VS_P1 =
      (if 2 ≤ (ratiosFor allBids PhaseType.p3).length then ratioMedian (ratiosFor allBids PhaseType.p3)
       else 17/20) ∧
    (calculateDataDrivenPhaseMultipliers allBids).P4_VS_P1 =
      (if 2 ≤ (ratiosFor allBids PhaseType.p4).length then ratioMedian (ratiosFor allBids PhaseType.p4)
       else 7/10) := by
  unfold forecastPhase
  rw [if_pos rfl]
  unfold estimateFromOtherPhases
  rw [if_neg hbase]
  exact ⟨rfl, crossConfidence_ne_high _ _ _, rfl, rfl, rfl⟩

/-- Witness for C3 (amended) at a concrete one-observation history. -/
theorem c3_cross_phase_price_witness :
    (forecastPhase trivPrims 20243 PhaseType.p2 [] [sampleBid1] none none none).expectedPrice =
      jroundQ ((forecastPhaseDirect trivPrims 20243 (basePhaseOf [sampleBid1]) (baseBidsOf [sampleBid1])
        none none none).expectedPrice *
        crossMultiplier PhaseType.p2 (basePhaseOf [sampleBid1])
          (calculateDataDrivenPhaseMultipliers [sampleBid1])) ∧
    (forecastPhase trivPrims 20243 PhaseType.p2 [] [sampleBid1] none none none).confidence ≠ Confidence.high ∧
    (calculateDataDrivenPhaseMultipliers [sampleBid1]).P2_VS_P1 =
      (if 2 ≤ (ratiosFor [sampleBid1] PhaseType.p2).length then ratioMedian (ratiosFor [sampleBid1] PhaseType.p2)
       else 23/20) ∧
    (calculateDataDrivenPhaseMultipliers [sampleBid1]).P3_VS_P1 =
      (if 2 ≤ (ratiosFor [sampleBid1] PhaseType.p3).length then ratioMedian (ratiosFor [sampleBid1] PhaseType.p3)
       else 17/20) ∧
    (calculateDataDrivenPhaseMultipliers [sampleBid1]).P4_VS_P1 =
      (if 2 ≤ (ratiosFor [sampleBid1] PhaseType.p4).length then ratioMedian (ratiosFor [sampleBid1] PhaseType.p4)
       else 7/10) :=
  c3_cross_phase_price trivPrims 20243 PhaseType.p2 [sampleBid1] none none none (by decide)

/-! ## Claim C4 -/

/-- A CourseContext with a malformed observation: a negative clearing
price. -/
def negPriceContext : CourseContext :=
  ⟨"FINC-430", "Finance", "Prof", [⟨some (Season.fall, 2024), PhaseType.p1, -3, 0, 0⟩],
    none, none, none⟩

/-- Claim C4 evaluated at the failing input: generateForecast performs no
input validation whatsoever — on a context whose only observation has
clearing price -3 it silently returns a complete forecast whose phase-1
expected price is -3 and whose safe bid is -4, instead of failing fast
with a caller-visible error as the spec requires (the result even
violates the spec's ForecastResult invariant that all monetary values are
non-negative). -/
theorem c4_no_input_validation :
    (generateForecast trivPrims 20243 negPriceContext).phase1.expectedPrice = -3 ∧
    (generateForecast trivPrims 20243 negPriceContext).phase1.safeBid = -4 ∧
    (generateForecast trivPrims 20243 negPriceContext).phase1.expectedPrice < 0 := by
  refine ⟨by decide, by decide, by decide⟩

/-! ## Claim C5 -/

/-- Primitives for the clock-dependence counterexample: pow is exact
exponentiation at the natural exponents the input exercises (0 and 10,
where Math.pow is exact up to float rounding); exp is a nonvanishing
constant (with a single observation the normalized weight is w / w = 1,
so only exp never being zero matters); the rest are unexercised. -/
def clockPrims : Prims :=
  ⟨fun _ => 1, fun _ => 0, fun _ => 0, fun _ => 0, fun _ => 0,
   fun b e => b ^ e.num.toNat, fun _ _ => 1⟩

/-- A fixed one-observation context (phase 1, price 3, Fall 2024). -/
def fixedContext : CourseContext :=
  ⟨"OPNS-450", "Operations", "Prof", [⟨some (Season.fall, 2024), PhaseType.p1, 3, 0, 0⟩],
    none, none, none⟩

/-- Counterexample to C5 as stated: generateForecast reads the system
clock (getCurrentTermNumber) — evaluating the engine on the same
CourseContext under two different clock readings (the observation's own
term, and a term-number 40 later, which the source's arithmetic treats
as 10 years) yields different CompleteForecasts: the inflation
adjustment turns the phase-1 expected price 3 into round(3 * 1.03^10)
= 4.  The output is therefore not a function of the CourseContext alone. -/
theorem c5_counterexample :
    generateForecast clockPrims 20243 fixedContext ≠ generateForecast clockPrims 20283 fixedContext := by
  intro h
  exact absurd (congrArg (fun f => f.phase1.expectedPrice) h) (by decide)

/-- Claim C5 as amended: the engine is deterministic in its explicit
inputs together with the clock-derived current term number — equal
contexts and equal current terms (and the same primitive interpretation)
give equal CompleteForecasts; the system clock is the engine's only
implicit input. -/
theorem c5_deterministic (P : Prims) (ct1 ct2 : ℚ) (ctxA ctxB : CourseContext)
    (hct : ct1 = ct2) (hctx : ctxA = ctxB) :
    generateForecast P ct1 ctxA = generateForecast P ct2 ctxB := by
  rw [hct, hctx]

/-- Witness for C5 (amended) at a concrete context and current term. -/
theorem c5_deterministic_witness :
    generateForecast clockPrims 20243 fixedContext = generateForecast clockPrims 20243 fixedContext :=
  c5_deterministic clockPrims 20243 20243 fixedContext fixedContext rfl rfl

/-! ## Claim C9 -/

/-- Modelled from the spec: the demand-pressure score as section 4.4
describes it — the weighted mean of (bids placed / seats available)
across the observations with valid (positive) denominators, each
weighted by its time-decay weight, mapped through the sigmoid centered
at ratio 2.0 (scale 1.5) to a 0-1 score; 0.5 with no demand data. -/
def demandPressureSpec (P : Prims) (ct : ℚ) (obs : List HistoricalBid) : ℚ :=
  let valid := obs.filter (fun b => decide (0 < b.spotsAvailable))
  if valid = [] then 1/2
  else
    let tw := (valid.map (fun b => calculateTimeWeight P (parseTermToNumber b.term) ct)).sum
    if tw = 0 then 1/2
    else
      let avg := (valid.map (fun b =>
        b.bidsPlaced / b.spotsAvailable * calculateTimeWeight P (parseTermToNumber b.term) ct)).sum / tw
      1 / (1 + P.exp (-((avg - 2) / (3/2))))

/-- Primitives whose exp is the cubic Taylor polynomial of the
exponential (exact at 0, strictly increasing and positive near 0, so a
faithful stand-in for Math.exp at the small arguments exercised); the
remaining primitives are unexercised constants. -/
def taylorPrims : Prims :=
  ⟨fun x => 1 + x + x * x / 2 + x * x * x / 6,
   fun _ => 0, fun _ => 0, fun _ => 0, fun _ => 0, fun _ _ => 1, fun _ _ => 1⟩

/-- Two same-term phase-1 observations: the first has 3 bids placed but
no seat count, the second has 5 seats but no bid count. -/
def misalignedBids : List HistoricalBid :=
  [⟨some (Season.fall, 2024), PhaseType.p1, 2, 0, 3⟩,
   ⟨some (Season.fall, 2024), PhaseType.p1, 2, 5, 0⟩]

/-- Claim C9 evaluated at the failing input: forecastPhase compacts the
positive bid counts and the positive seat counts into two separately
filtered arrays and pairs them by position, so on misalignedBids it
computes the single ratio 3/5 from the FIRST observation's bids and the
SECOND observation's seats (with the first observation's weight), where
the spec's weighted mean over the valid-denominator observations is the
ratio 0/5 of the second observation alone; the resulting pressure scores
differ. -/
theorem c9_demand_misalignment :
    (forecastPhaseDirect taylorPrims 20243 PhaseType.p1 misalignedBids none none none).demandPressure =
      1 / (1 + taylorPrims.exp (-((3/5 - 2) / (3/2)))) ∧
    demandPressureSpec taylorPrims 20243 misalignedBids =
      1 / (1 + taylorPrims.exp (-((0 - 2) / (3/2)))) ∧
    (forecastPhaseDirect taylorPrims 20243 PhaseType.p1 misalignedBids none none none).demandPressure ≠
      demandPressureSpec taylorPrims 20243 misalignedBids := by
  refine ⟨by decide, by decide, by decide⟩

/-! ## Claim C6 -/

theorem sum_getD_eq_sum (l : List ℚ) :
    ∑ i ∈ Finset.range l.length, l.getD i 0 = l.sum := by
  induction l with
  | nil => simp
  | cons a t ih =>
    rw [List.length_cons, Finset.sum_range_succ', List.sum_cons]
    simp only [List.getD_cons_succ, List.getD_cons_zero]
    rw [ih, add_comm]

/-- Claim C6: on a perfectly flat price series (the same constant price
at 3 or more terms) with positive weights, detectTrend returns the trend
stable with strength 0.  The only primitive fact used is that the square
root of 0 is 0 (true of Math.sqrt).  Division is exact rational division
with the x / 0 = 0 convention standing in for the nonfinite float
quotients that a constant-zero price series would produce. -/
theorem c6_flat_series_stable (P : Prims) (hs : P.sqrt 0 = 0) (c : ℚ)
    (prices terms weights : List ℚ)
    (hlen : 3 ≤ prices.length)
    (hwlen : weights.length = prices.length)
    (hconst : ∀ x ∈ prices, x = c)
    (hwpos : ∀ w ∈ weights, 0 < w) :
    (detectTrend P prices terms weights).trend = Trend.stable ∧
    (detectTrend P prices terms weights).strength = 0 := by
  have hwne : weights ≠ [] := by
    intro h
    rw [h] at hwlen
    simp at hwlen
    omega
  have hW : 0 < dtTotalWeight weights := List.sum_pos weights hwpos hwne
  have hY : ∀ i ∈ Finset.range prices.length, prices.getD i 0 = c := fun i hi =>
    hconst _ (getD_mem_of_lt (Finset.mem_range.mp hi))
  have hSumWY : dtSumWY prices terms weights = dtTotalWeight weights * c := by
    unfold dtSumWY dtTotalWeight
    rw [show ∑ i ∈ Finset.range prices.length, weights.getD i 0 * prices.getD i 0 =
        ∑ i ∈ Finset.range prices.length, weights.getD i 0 * c from
      Finset.sum_congr rfl (fun i hi => by rw [hY i hi])]
    rw [← Finset.sum_mul, ← hwlen, sum_getD_eq_sum]
  have hSumWXY : dtSumWXY prices terms weights = dtSumWX prices terms weights * c := by
    unfold dtSumWXY dtSumWX
    rw [show ∑ i ∈ Finset.range prices.length, weights.getD i 0 * dtX terms i * prices.getD i 0 =
        ∑ i ∈ Finset.range prices.length, weights.getD i 0 * dtX terms i * c from
      Finset.sum_congr rfl (fun i hi => by rw [hY i hi])]
    rw [← Finset.sum_mul]
  have hMeanY : dtMeanY prices terms weights = c := by
    unfold dtMeanY
    rw [hSumWY, mul_comm, mul_div_assoc, div_self hW.ne', mul_one]
  have hNum : dtNumerator prices terms weights = 0 := by
    unfold dtNumerator dtMeanX
    rw [hSumWXY, hMeanY]
    ring
  have hSlope : dtSlope prices terms weights = 0 := by
    unfold dtSlope
    rw [hNum, zero_div]
  have hIntercept : dtIntercept prices terms weights = c := by
    unfold dtIntercept
    rw [hSlope, hMeanY]
    ring
  have hSSR : dtSSR prices terms weights = 0 := by
    unfold dtSSR
    refine Finset.sum_eq_zero (fun i hi => ?_)
    rw [hY i hi, hIntercept, hSlope]
    ring
  have hSe : dtSeSlope P prices terms weights = 0 := by
    unfold dtSeSlope dtMSE
    rw [hSSR, zero_div, zero_div, hs]
  have hT : dtTStat P prices terms weights = 0 := by
    unfold dtTStat
    rw [hSe]
    simp
  have hPV : dtPValue P prices terms weights = 1 := by
    unfold dtPValue
    rw [hT]
    simp
  have hSig : dtIsSignificant P prices terms weights = false := by
    unfold dtIsSignificant
    rw [hPV]
    decide
  have hPct : dtPctChange prices terms weights = 0 := by
    unfold dtPctChange
    rw [hSlope, zero_div]
  have hStr : dtStrength prices terms weights = 0 := by
    unfold dtStrength
    rw [hPct]
    norm_num
  unfold detectTrend
  rw [if_neg (by omega)]
  split
  · exact ⟨rfl, rfl⟩
  · constructor
    · simp only [hSig, hStr]
      rw [if_neg (by simp), if_neg (by simp)]
    · exact hStr

/-- Witness for C6 at a concrete flat three-term series. -/
theorem c6_flat_series_stable_witness :
    (detectTrend trivPrims [2, 2, 2] [20241, 20242, 20243] [1, 1, 1]).trend = Trend.stable ∧
    (detectTrend trivPrims [2, 2, 2] [20241, 20242, 20243] [1, 1, 1]).strength = 0 :=
  c6_flat_series_stable trivPrims rfl 2 [2, 2, 2] [20241, 20242, 20243] [1, 1, 1]
    (by decide) (by decide) (by decide) (by decide)

/-! ## Claim C7 -/

theorem getD_nonneg {l : List ℚ} (hw : ∀ w ∈ l, 0 ≤ w) (i : ℕ) : 0 ≤ l.getD i 0 := by
  by_cases h : i < l.length
  · exact hw _ (getD_mem_of_lt h)
  · rw [List.getD_eq_default l 0 (le_of_not_lt h)]

theorem qdiv_le_qdiv {a b c : ℚ} (h : a ≤ b) (hc : 0 ≤ c) : a / c ≤ b / c := by
  exact div_le_div_of_nonneg_right h hc

theorem logNormalCDF_nonneg (P : Prims) (herfb : ∀ z, -1 ≤ P.erf z ∧ P.erf z ≤ 1)
    (x mean stdDev : ℚ) : 0 ≤ logNormalCDF P x mean stdDev := by
  unfold logNormalCDF
  split
  · exact le_refl 0
  · show 0 ≤ 1 / 2 * (1 + P.erf
      ((P.logf x - (P.logf mean - 1 / 2 * P.logf (1 + stdDev * stdDev / (mean * mean)))) /
        (P.sqrt (P.logf (1 + stdDev * stdDev / (mean * mean))) * P.sqrt 2)))
    have := (herfb ((P.logf x - (P.logf mean - 1 / 2 * P.logf (1 + stdDev * stdDev / (mean * mean)))) /
      (P.sqrt (P.logf (1 + stdDev * stdDev / (mean * mean))) * P.sqrt 2))).1
    linarith

theorem logNormalCDF_mono (P : Prims) (hlog : Monotone P.logf)
    (hsq : ∀ q, 0 ≤ P.sqrt q) (herfm : Monotone P.erf)
    (herfb : ∀ z, -1 ≤ P.erf z ∧ P.erf z ≤ 1)
    (mean stdDev : ℚ) {x1 x2 : ℚ} (h : x1 ≤ x2) :
    logNormalCDF P x1 mean stdDev ≤ logNormalCDF P x2 mean stdDev := by
  by_cases h1 : x1 ≤ 0 ∨ mean ≤ 0
  · rw [show logNormalCDF P x1 mean stdDev = 0 from by unfold logNormalCDF; rw [if_pos h1]]
    exact logNormalCDF_nonneg P herfb x2 mean stdDev
  · have h2 : ¬(x2 ≤ 0 ∨ mean ≤ 0) := by
      push_neg at h1 ⊢
      exact ⟨lt_of_lt_of_le h1.1 h, h1.2⟩
    unfold logNormalCDF
    rw [if_neg h1, if_neg h2]
    have hz : (P.logf x1 - (P.logf mean - 1 / 2 * P.logf (1 + stdDev * stdDev / (mean * mean)))) /
        (P.sqrt (P.logf (1 + stdDev * stdDev / (mean * mean))) * P.sqrt 2) ≤
        (P.logf x2 - (P.logf mean - 1 / 2 * P.logf (1 + stdDev * stdDev / (mean * mean)))) /
        (P.sqrt (P.logf (1 + stdDev * stdDev / (mean * mean))) * P.sqrt 2) := by
      refine qdiv_le_qdiv ?_ (mul_nonneg (hsq _) (hsq _))
      have := hlog h
      linarith
    have := herfm hz
    linarith

theorem wpWeightBeaten_nonneg (bid : ℚ) (prices weights : List ℚ)
    (hw : ∀ w ∈ weights, 0 ≤ w) : 0 ≤ wpWeightBeaten bid prices weights := by
  refine Finset.sum_nonneg (fun i _ => ?_)
  have hwi := getD_nonneg hw i
  split_ifs <;> linarith

theorem wpWeightBeaten_mono {b1 b2 : ℚ} (h : b1 ≤ b2) (prices weights : List ℚ)
    (hw : ∀ w ∈ weights, 0 ≤ w) :
    wpWeightBeaten b1 prices weights ≤ wpWeightBeaten b2 prices weights := by
  refine Finset.sum_le_sum (fun i _ => ?_)
  have hwi := getD_nonneg hw i
  split_ifs <;> linarith

theorem winProb_nonneg (P : Prims) (herfb : ∀ z, -1 ≤ P.erf z ∧ P.erf z ≤ 1)
    (bid : ℚ) (prices weights : List ℚ) (expectedPrice stdDev : ℚ)
    (hw : ∀ w ∈ weights, 0 ≤ w) :
    0 ≤ calculateWinProbability P bid prices weights expectedPrice stdDev := by
  unfold calculateWinProbability
  split_ifs
  · exact le_refl 0
  · norm_num
  · exact mul_nonneg (logNormalCDF_nonneg P herfb _ _ _) (by norm_num)
  · refine jroundQ_nonneg (mul_nonneg ?_ (by norm_num))
    have hsh1 : 0 ≤ wpShrinkage prices := le_min (by norm_num) (by positivity)
    have hsh2 : wpShrinkage prices ≤ 1 := min_le_left _ _
    have hew1 : 0 ≤ wpEmpWeight prices := le_min (by norm_num) (by positivity)
    have hew2 : wpEmpWeight prices ≤ 1 := min_le_left _ _
    have hemp : 0 ≤ wpEmpirical bid prices weights :=
      div_nonneg (wpWeightBeaten_nonneg bid prices weights hw) (List.sum_nonneg hw)
    have hadj : 0 ≤ wpAdjusted bid prices weights := by
      unfold wpAdjusted
      nlinarith
    have hpar : 0 ≤ wpParametric P bid expectedPrice stdDev :=
      logNormalCDF_nonneg P herfb _ _ _
    nlinarith

theorem winProb_mono (P : Prims) (hlog : Monotone P.logf) (hsq : ∀ q, 0 ≤ P.sqrt q)
    (herfm : Monotone P.erf) (herfb : ∀ z, -1 ≤ P.erf z ∧ P.erf z ≤ 1)
    {b1 b2 : ℚ} (h : b1 ≤ b2) (prices weights : List ℚ) (expectedPrice stdDev : ℚ)
    (hw : ∀ w ∈ weights, 0 ≤ w) :
    calculateWinProbability P b1 prices weights expectedPrice stdDev ≤
      calculateWinProbability P b2 prices weights expectedPrice stdDev := by
  by_cases hb1 : b1 ≤ 0
  · rw [show calculateWinProbability P b1 prices weights expectedPrice stdDev = 0 from by
      unfold calculateWinProbability; rw [if_pos hb1]]
    exact winProb_nonneg P herfb b2 prices weights expectedPrice stdDev hw
  · have hb2 : ¬ b2 ≤ 0 := fun hc => hb1 (le_trans h hc)
    unfold calculateWinProbability
    rw [if_neg hb1, if_neg hb2]
    by_cases hpr : prices = []
    · rw [if_pos hpr, if_pos hpr]
      split
      · exact le_refl 50
      · exact mul_le_mul_of_nonneg_right
          (logNormalCDF_mono P hlog hsq herfm herfb _ _ h) (by norm_num)
    · rw [if_neg hpr, if_neg hpr]
      refine jroundQ_mono (mul_le_mul_of_nonneg_right ?_ (by norm_num))
      have hsh1 : 0 ≤ wpShrinkage prices := le_min (by norm_num) (by positivity)
      have hew1 : 0 ≤ wpEmpWeight prices := le_min (by norm_num) (by positivity)
      have hew2 : wpEmpWeight prices ≤ 1 := min_le_left _ _
      have hemp : wpEmpirical b1 prices weights ≤ wpEmpirical b2 prices weights :=
        qdiv_le_qdiv (wpWeightBeaten_mono h prices weights hw) (List.sum_nonneg hw)
      have hadj : wpAdjusted b1 prices weights ≤ wpAdjusted b2 prices weights := by
        unfold wpAdjusted
        nlinarith
      have hpar : wpParametric P b1 expectedPrice stdDev ≤ wpParametric P b2 expectedPrice stdDev :=
        logNormalCDF_mono P hlog hsq herfm herfb _ _ h
      nlinarith

/-- Claim C7: on every fixed win-probability curve produced by
generateWinProbabilityCurve (for non-negative weights), the probability
values are non-decreasing in the bid: any two sample points with bid1 at
most bid2 have probability1 at most probability2.  The hypotheses on the
primitives are facts of the real implementations: Math.log and the
Abramowitz-Stegun erf are monotone, Math.sqrt is non-negative and erf is
bounded by 1 in absolute value. -/
theorem c7_curve_monotone (P : Prims) (hlog : Monotone P.logf)
    (hsq : ∀ q, 0 ≤ P.sqrt q) (herfm : Monotone P.erf)
    (herfb : ∀ z, -1 ≤ P.erf z ∧ P.erf z ≤ 1)
    (prices weights : List ℚ) (expectedPrice stdDev : ℚ)
    (hw : ∀ w ∈ weights, 0 ≤ w) (pt1 pt2 : ℚ × ℚ)
    (h1 : pt1 ∈ generateWinProbabilityCurve P prices weights expectedPrice stdDev)
    (h2 : pt2 ∈ generateWinProbabilityCurve P prices weights expectedPrice stdDev)
    (hb : pt1.1 ≤ pt2.1) : pt1.2 ≤ pt2.2 := by
  unfold generateWinProbabilityCurve at h1 h2
  by_cases hep : expectedPrice ≤ 0
  · rw [if_pos hep] at h1
    simp at h1
  · rw [if_neg hep] at h1 h2
    obtain ⟨j1, _, he1⟩ := List.mem_map.mp h1
    obtain ⟨j2, _, he2⟩ := List.mem_map.mp h2
    rw [← he1, ← he2] at hb ⊢
    exact winProb_mono P hlog hsq herfm herfb hb prices weights expectedPrice stdDev hw

/-- Witness for C7 at a concrete curve and pair of points. -/
theorem c7_curve_monotone_witness :
    ((4 : ℚ), (50 : ℚ)) ∈ generateWinProbabilityCurve trivPrims [] [] 8 0 ∧
    ((12 : ℚ), (50 : ℚ)) ∈ generateWinProbabilityCurve trivPrims [] [] 8 0 ∧
    (50 : ℚ) ≤ (50 : ℚ) := by
  refine ⟨by decide, by decide, ?_⟩
  exact c7_curve_monotone trivPrims (fun a b _ => le_refl 0) (fun q => le_refl 0)
    (fun a b _ => le_refl 0) (fun z => by norm_num [trivPrims]) [] [] 8 0
    (fun w hw => absurd hw (List.not_mem_nil w)) (4, 50) (12, 50)
    (by decide) (by decide) (by norm_num)

/-! ## Claim C8 -/

/-- A rational that is a whole number (as every bid and probability of a
direct-path curve is). -/
def IsIntQ (q : ℚ) : Prop := q.den = 1

instance (q : ℚ) : Decidable (IsIntQ q) := by unfold IsIntQ; infer_instance

theorem jroundQ_intCast (n : ℤ) : jroundQ (n : ℚ) = n := by
  unfold jroundQ jround
  rw [Int.floor_int_add]
  norm_num

theorem jroundQ_of_int {q : ℚ} (h : IsIntQ q) : jroundQ q = q := by
  have hq : (q.num : ℚ) = q := (Rat.den_eq_one_iff q).mp h
  rw [← hq, jroundQ_intCast]

theorem jroundQ_between {a b v : ℚ} (ha : IsIntQ a) (hb : IsIntQ b)
    (h1 : a ≤ v) (h2 : v ≤ b) : a ≤ jroundQ v ∧ jroundQ v ≤ b := by
  constructor
  · calc a = jroundQ a := (jroundQ_of_int ha).symm
      _ ≤ jroundQ v := jroundQ_mono h1
  · calc jroundQ v ≤ jroundQ b := jroundQ_mono h2
      _ = b := jroundQ_of_int hb

theorem findBracket_spec (pred : (ℚ × ℚ) → (ℚ × ℚ) → Bool) :
    ∀ (l : List (ℚ × ℚ)) (A C : ℚ × ℚ), findBracket pred l = some (A, C) →
      ∃ i, l.get? i = some A ∧ l.get? (i + 1) = some C ∧ pred A C = true := by
  intro l
  induction l with
  | nil => intro A C h; simp [findBracket] at h
  | cons a t ih =>
    cases t with
    | nil => intro A C h; simp [findBracket] at h
    | cons b rest =>
      intro A C h
      rw [findBracket] at h
      split at h
      · rename_i hp
        cases h
        exact ⟨0, rfl, rfl, hp⟩
      · obtain ⟨i, h1, h2, h3⟩ := ih A C h
        exact ⟨i + 1, h1, h2, h3⟩

theorem findBracket_isSome (pred : (ℚ × ℚ) → (ℚ × ℚ) → Bool) :
    ∀ (l : List (ℚ × ℚ)) (i : ℕ) (A C : ℚ × ℚ), l.get? i = some A →
      l.get? (i + 1) = some C → pred A C = true → (findBracket pred l).isSome = true := by
  intro l
  induction l with
  | nil => intro i A C h; simp at h
  | cons a t ih =>
    cases t with
    | nil =>
      intro i A C h1 h2 _
      cases i with
      | zero => simp at h2
      | succ j => simp at h1
    | cons b rest =>
      intro i A C h1 h2 hp
      rw [findBracket]
      split
      · simp
      · rename_i hnp
        cases i with
        | zero =>
          cases h1
          cases h2
          exact absurd hp hnp
        | succ j => exact ih j A C h1 h2 hp

/-- Ten identical historical clearing prices of 100. -/
def flatHundred : List ℚ := [100, 100, 100, 100, 100, 100, 100, 100, 100, 100]

/-- Unit weights for the ten observations. -/
def unitWeights : List ℚ := [1, 1, 1, 1, 1, 1, 1, 1, 1, 1]

/-- A curve the engine produces on ten observations flat at price 100
(expected price 100, step 3): probabilities jump 0 / 50 / 100 and then
stay flat at 100 from bid 101 up. -/
def flatCurve : List (ℚ × ℚ) :=
  generateWinProbabilityCurve trivPrims flatHundred unitWeights 100 0

/-- Counterexample to C8 as stated: on flatCurve the bid 140 is strictly
inside the bid range [50, 149] and the step is 3, but the round-trip
getBidForTargetProbability (getWinProbabilityForBid 140) returns 101 —
the start of the flat probability-100 run — which is 39 > 3 away from
140, not within one interpolation step. -/
theorem c8_counterexample :
    (flatCurve.headD (0, 0)).1 < 140 ∧
    (140 : ℚ) < ((flatCurve.getLast?).getD (0, 0)).1 ∧
    gwStep 100 = 3 ∧
    getBidForTargetProbability (getWinProbabilityForBid 140 (some flatCurve)) (some flatCurve) = 101 ∧
    ¬ |getBidForTargetProbability (getWinProbabilityForBid 140 (some flatCurve)) (some flatCurve) - 140| ≤
        gwStep 100 := by
  refine ⟨by decide, by decide, by decide, by decide, by decide⟩

theorem chain'_adj {R : (ℚ × ℚ) → (ℚ × ℚ) → Prop} {l : List (ℚ × ℚ)}
    (h : List.Chain' R l) {i : ℕ} {A C : ℚ × ℚ}
    (h1 : l.get? i = some A) (h2 : l.get? (i + 1) = some C) : R A C := by
  obtain ⟨hi, hA⟩ := List.get?_eq_some.mp h1
  obtain ⟨hi1, hC⟩ := List.get?_eq_some.mp h2
  have hlt : i < l.length - 1 := by omega
  have := List.chain'_iff_get.mp h i hlt
  rw [← hA, ← hC]
  exact this

theorem pairwise_of_chain'_lt {f : (ℚ × ℚ) → ℚ} {l : List (ℚ × ℚ)}
    (h : List.Chain' (fun p q => f p < f q) l) {i j : ℕ} {A B : ℚ × ℚ}
    (hij : i < j) (h1 : l.get? i = some A) (h2 : l.get? j = some B) : f A < f B := by
  haveI : IsTrans (ℚ × ℚ) (fun p q => f p < f q) := ⟨fun _ _ _ => lt_trans⟩
  have hpw := List.chain'_iff_pairwise.mp h
  obtain ⟨hi, hA⟩ := List.get?_eq_some.mp h1
  obtain ⟨hj, hB⟩ := List.get?_eq_some.mp h2
  have := List.pairwise_iff_get.mp hpw ⟨i, hi⟩ ⟨j, hj⟩ hij
  rw [← hA, ← hB]
  exact this

theorem get?_zero_of_ne {l : List (ℚ × ℚ)} (h : l ≠ []) :
    l.get? 0 = some (l.headD (0, 0)) := by
  cases l with
  | nil => exact absurd rfl h
  | cons a t => rfl

theorem get?_last_of_ne {l : List (ℚ × ℚ)} (h : l ≠ []) :
    l.get? (l.length - 1) = some ((l.getLast?).getD (0, 0)) := by
  rw [← List.getLast?_eq_get?]
  cases hl : l.getLast? with
  | none => exact absurd (List.getLast?_eq_none.mp hl) h
  | some z => rfl

theorem exists_bid_bracket :
    ∀ (l : List (ℚ × ℚ)) (b : ℚ), 2 ≤ l.length →
      (l.headD (0, 0)).1 ≤ b → b ≤ ((l.getLast?).getD (0, 0)).1 →
      ∃ i A C, l.get? i = some A ∧ l.get? (i + 1) = some C ∧ A.1 ≤ b ∧ b ≤ C.1 := by
  intro l
  induction l with
  | nil => intro b h; simp at h
  | cons a t ih =>
    cases t with
    | nil => intro b h; simp at h
    | cons c rest =>
      intro b _ hhead hlast
      by_cases hbc : b ≤ c.1
      · exact ⟨0, a, c, rfl, rfl, hhead, hbc⟩
      · cases rest with
        | nil =>
          exact absurd hlast (by simpa [List.getLast?] using hbc)
        | cons d rest2 =>
          have hlast' : b ≤ (((c :: d :: rest2).getLast?).getD (0, 0)).1 := by
            rw [show (a :: c :: d :: rest2).getLast? = (c :: d :: rest2).getLast? from rfl] at hlast
            exact hlast
          obtain ⟨i, A, C, h1, h2, h3, h4⟩ :=
            ih b (by simp) (le_of_lt (lt_of_not_le hbc)) hlast'
          exact ⟨i + 1, A, C, h1, h2, h3, h4⟩

/-- Claim C8 as amended: for a fixed probability curve with uniformly
spaced whole-number bids (first bid non-negative), strictly increasing
whole-number probabilities within [0, 100], and any bid b strictly inside
the curve's bid range, composing the two lookups round-trips to within
one interpolation step: |getBidForTargetProbability
(getWinProbabilityForBid b curve) curve - b| is at most the step.  (The
counterexample shows the strictness condition is necessary: on a flat
probability run the inverse lookup snaps to the run's first point.) -/
theorem c8_roundtrip_one_step (l : List (ℚ × ℚ)) (s b : ℚ)
    (hstep : List.Chain' (fun p q => q.1 = p.1 + s) l)
    (hs : 0 < s)
    (hprob : List.Chain' (fun p q => p.2 < q.2) l)
    (hint : ∀ pt ∈ l, IsIntQ pt.1 ∧ IsIntQ pt.2)
    (hx0 : 0 ≤ (l.headD (0, 0)).1)
    (hp0 : 0 ≤ (l.headD (0, 0)).2)
    (hp100 : ((l.getLast?).getD (0, 0)).2 ≤ 100)
    (hb1 : (l.headD (0, 0)).1 < b)
    (hb2 : b < ((l.getLast?).getD (0, 0)).1) :
    |getBidForTargetProbability (getWinProbabilityForBid b (some l)) (some l) - b| ≤ s := by
  have hne : l ≠ [] := by
    intro h
    subst h
    simp at hb1 hb2
    linarith
  have hn2 : 2 ≤ l.length := by
    rcases l with _ | ⟨x, _ | ⟨y, t⟩⟩
    · simp at hb1 hb2; linarith
    · simp [List.getLast?] at hb1 hb2; linarith
    · simp
  have hxlt : List.Chain' (fun p q : ℚ × ℚ => p.1 < q.1) l :=
    List.Chain'.imp (fun p q hpq => by rw [hpq]; linarith) hstep
  have h0 := get?_zero_of_ne hne
  have hLast := get?_last_of_ne hne
  -- the bid-bracket of the forward lookup
  obtain ⟨i0, A0, C0, hA0, hC0, hA0b, hbC0⟩ :=
    exists_bid_bracket l b hn2 (le_of_lt hb1) (le_of_lt hb2)
  have hsome := findBracket_isSome (fun a c => decide (a.1 ≤ b ∧ b ≤ c.1)) l i0 A0 C0 hA0 hC0
    (by simp only [decide_eq_true_eq]; exact ⟨hA0b, hbC0⟩)
  obtain ⟨⟨A, C⟩, hfb⟩ := Option.isSome_iff_exists.mp hsome
  obtain ⟨i, hAi, hCi, hpred⟩ := findBracket_spec _ l A C hfb
  have hACb : A.1 ≤ b ∧ b ≤ C.1 := by simpa using hpred
  have hCA : C.1 = A.1 + s := chain'_adj hstep hAi hCi
  have hAC2 : A.2 < C.2 := chain'_adj hprob hAi hCi
  have hintA := hint A (List.get?_mem hAi)
  have hintC := hint C (List.get?_mem hCi)
  have hbpos : ¬ b ≤ 0 := by linarith
  -- evaluate the forward lookup
  have hp_eval : getWinProbabilityForBid b (some l) =
      (if b ≤ A.1 then A.2 else if C.1 ≤ b then C.2
       else jroundQ (A.2 + (b - A.1) / (C.1 - A.1) * (C.2 - A.2))) := by
    simp only [getWinProbabilityForBid, hfb, Option.getD_some]
    rw [if_neg hne, if_neg hbpos]
  obtain ⟨p, hpdef⟩ : ∃ p, getWinProbabilityForBid b (some l) = p := ⟨_, rfl⟩
  rw [hpdef] at hp_eval ⊢
  have hpbounds : A.2 ≤ p ∧ p ≤ C.2 := by
    rw [hp_eval]
    split_ifs with h1 h2
    · exact ⟨le_refl _, le_of_lt hAC2⟩
    · exact ⟨le_of_lt hAC2, le_refl _⟩
    · have hden : 0 < C.1 - A.1 := by rw [hCA]; linarith
      have hr0 : 0 ≤ (b - A.1) / (C.1 - A.1) := div_nonneg (by linarith [hACb.1]) hden.le
      have hr1 : (b - A.1) / (C.1 - A.1) ≤ 1 := by
        rw [div_le_one hden]
        linarith [hACb.2]
      refine jroundQ_between hintA.2 hintC.2 ?_ ?_
      · nlinarith
      · nlinarith
  -- the probability is inside [0, 100], so the clamp is the identity
  have hA2_0 : 0 ≤ A.2 := by
    rcases Nat.eq_zero_or_pos i with hi0 | hipos
    · rw [hi0] at hAi
      have : some (l.headD (0, 0)) = some A := by rw [← h0, ← hAi]
      cases this
      exact hp0
    · exact le_of_lt (lt_of_le_of_lt hp0 (pairwise_of_chain'_lt hprob hipos h0 hAi))
  have hC2_100 : C.2 ≤ 100 := by
    have hi1 : i + 1 < l.length := (List.get?_eq_some.mp hCi).1
    rcases eq_or_lt_of_le (show i + 1 ≤ l.length - 1 by omega) with he | hlt
    · have : some C = some ((l.getLast?).getD (0, 0)) := by rw [← hCi, he, ← hLast]
      cases this
      exact hp100
    · exact le_of_lt (lt_of_lt_of_le (pairwise_of_chain'_lt hprob hlt hCi hLast) hp100)
  have hp_0 : 0 ≤ p := le_trans hA2_0 hpbounds.1
  have hp_100 : p ≤ 100 := le_trans hpbounds.2 hC2_100
  have hclamp : max 0 (min 100 p) = p := by rw [min_eq_right hp_100, max_eq_right hp_0]
  -- the probability-bracket of the inverse lookup
  have hsome2 := findBracket_isSome (fun a c => decide (a.2 ≤ p ∧ p ≤ c.2)) l i A C hAi hCi
    (by simp only [decide_eq_true_eq]; exact hpbounds)
  obtain ⟨⟨L, U⟩, hfb2⟩ := Option.isSome_iff_exists.mp hsome2
  obtain ⟨j, hLj, hUj, hpred2⟩ := findBracket_spec _ l L U hfb2
  have hLUp : L.2 ≤ p ∧ p ≤ U.2 := by simpa using hpred2
  have hLU2 : L.2 < U.2 := chain'_adj hprob hLj hUj
  have hUL1 : U.1 = L.1 + s := chain'_adj hstep hLj hUj
  have hintL := hint L (List.get?_mem hLj)
  have hintU := hint U (List.get?_mem hUj)
  have hbid_eval : getBidForTargetProbability p (some l) =
      jroundQ (L.1 + (p - L.2) / (U.2 - L.2) * (U.1 - L.1)) := by
    simp only [getBidForTargetProbability, hclamp, hfb2]
    rw [if_neg hne, if_neg (show ¬ (U.2 - L.2 = 0) by intro h; linarith)]
  -- position analysis of the two brackets
  have hjge : i ≤ j + 1 := by
    by_contra hcon
    push_neg at hcon
    have := pairwise_of_chain'_lt hprob (show j + 1 < i by omega) hUj hAi
    linarith [hpbounds.1, hLUp.2]
  have hjle : j ≤ i + 1 := by
    by_contra hcon
    push_neg at hcon
    have := pairwise_of_chain'_lt hprob (show i + 1 < j by omega) hCi hLj
    linarith [hpbounds.2, hLUp.1]
  rw [hbid_eval]
  rcases Nat.lt_trichotomy j i with hlt | heq | hgt
  · -- j + 1 = i: the target probability equals A.2 and the inverse snaps to A.1
    have hji : j + 1 = i := by omega
    have hUA : U = A := by
      have : some U = some A := by rw [← hUj, hji, ← hAi]
      cases this; rfl
    have hpA : p = A.2 := le_antisymm (hUA ▸ hLUp.2) hpbounds.1
    have hratio : (p - L.2) / (U.2 - L.2) = 1 := by
      rw [hpA, hUA]
      exact div_self (by linarith [hUA ▸ hLU2])
    rw [hratio]
    have : L.1 + 1 * (U.1 - L.1) = U.1 := by ring
    rw [this, jroundQ_of_int hintU.1, hUA]
    rw [abs_le]
    constructor <;> [linarith [hACb.1]; linarith [hACb.2, hCA]]
  · -- j = i: the inverse interpolates inside the same segment as b
    have hLA : L = A := by
      have : some L = some A := by rw [← hLj, heq, ← hAi]
      cases this; rfl
    have hUC : U = C := by
      have : some U = some C := by rw [← hUj, heq, ← hCi]
      cases this; rfl
    rw [hLA, hUC]
    have hden : 0 < C.2 - A.2 := by linarith
    have hsn : 0 ≤ C.1 - A.1 := by rw [hCA]; linarith
    have hr0 : 0 ≤ (p - A.2) / (C.2 - A.2) := div_nonneg (by linarith [hpbounds.1]) hden.le
    have hr1 : (p - A.2) / (C.2 - A.2) ≤ 1 := by
      rw [div_le_one hden]
      linarith [hpbounds.2]
    have hprod1 : 0 ≤ (p - A.2) / (C.2 - A.2) * (C.1 - A.1) := mul_nonneg hr0 hsn
    have hprod2 : 0 ≤ (1 - (p - A.2) / (C.2 - A.2)) * (C.1 - A.1) :=
      mul_nonneg (by linarith) hsn
    have hv1 : A.1 ≤ A.1 + (p - A.2) / (C.2 - A.2) * (C.1 - A.1) := by linarith
    have hv2 : A.1 + (p - A.2) / (C.2 - A.2) * (C.1 - A.1) ≤ C.1 := by nlinarith [hprod2]
    have hb' := jroundQ_between hintA.1 hintC.1 hv1 hv2
    rw [abs_le]
    constructor
    · linarith [hb'.1, hACb.2, hCA]
    · linarith [hb'.2, hACb.1, hCA]
  · -- j = i + 1: the target probability equals C.2 and the inverse snaps to C.1
    have hji : j = i + 1 := by omega
    have hLC : L = C := by
      have : some L = some C := by rw [← hLj, hji, ← hCi]
      cases this; rfl
    have hpC : p = C.2 := le_antisymm hpbounds.2 (hLC ▸ hLUp.1)
    have hratio : (p - L.2) / (U.2 - L.2) = 0 := by
      rw [hpC, hLC, sub_self, zero_div]
    rw [hratio]
    have : L.1 + 0 * (U.1 - L.1) = L.1 := by ring
    rw [this, jroundQ_of_int hintL.1, hLC]
    rw [abs_le]
    constructor <;> [linarith [hACb.2]; linarith [hACb.1, hCA]]

/-- Witness for C8 (amended) at a concrete strictly increasing curve. -/
theorem c8_roundtrip_one_step_witness :
    |getBidForTargetProbability (getWinProbabilityForBid (3/2) (some [(1, 10), (2, 20), (3, 30)]))
        (some [(1, 10), (2, 20), (3, 30)]) - 3/2| ≤ 1 :=
  c8_roundtrip_one_step [(1, 10), (2, 20), (3, 30)] 1 (3/2)
    (by simp [List.chain'_cons]; norm_num) (by norm_num)
    (by simp [List.chain'_cons]; norm_num) (by decide) (by decide) (by decide)
    (by decide) (by decide) (by decide)
